import Mathlib

/-!
Verification development for the crypto backtester repository.

The Python sources are shallowly embedded here:
* machine floats are modelled as rationals (`ℚ`);
* Python `float` division is checked: a division whose denominator is zero
  raises `ZeroDivisionError` in Python, so divisions translated from the code
  return `Option`/`Except` values (`qdiv?`, `ediv`);
* `None` becomes `Option.none`; pandas `NaN` cells become `Option.none` and
  comparisons against `NaN` are `false`, matching IEEE semantics;
* the bar-by-bar simulation loop of `src/backtester/engine.py` becomes an
  explicit state-passing fold; the loop state also records a trace of the
  arguments passed to the risk manager's exit trigger, which the source
  computes but does not store, so that theorems can speak about those calls.
-/

namespace Backtester

/-- Python float division: raises `ZeroDivisionError` (modelled as `none`)
when the denominator is zero. -/
def qdiv? (a b : ℚ) : Option ℚ :=
  if b = 0 then none else some (a / b)

/-- `src/strategies/base.py`: the `SignalType` enum (`BUY`/`SELL`/`HOLD`). -/
inductive SignalType where
  | buy
  | sell
  | hold
deriving DecidableEq, Repr

/-- `src/strategies/base.py`: the `TradeSignal` dataclass.  Timestamps are
modelled as natural numbers (opaque ordered keys of the bar index). -/
structure TradeSignal where
  timestamp : ℕ
  signal_type : SignalType
  price : ℚ
  confidence : ℚ := 1
  reason : String := ""
  stop_loss : Option ℚ := none
  take_profit : Option ℚ := none
deriving DecidableEq, Repr

/-- `src/backtester/metrics.py`: the `Trade` dataclass. -/
structure Trade where
  entry_time : ℕ
  exit_time : Option ℕ := none
  entry_price : ℚ := 0
  exit_price : Option ℚ := none
  quantity : ℚ := 0
  side : String := "long"
  pnl : Option ℚ := none
  pnl_pct : Option ℚ := none
  commission : ℚ := 0
  is_open : Bool := true
deriving DecidableEq, Repr

/-- `src/risk/manager.py`: the `RiskParameters` dataclass with its defaults. -/
structure RiskParameters where
  max_position_size : ℚ := 1/10
  stop_loss_pct : Option ℚ := none
  take_profit_pct : Option ℚ := none
  max_daily_loss : Option ℚ := none
  max_drawdown : Option ℚ := none
  risk_per_trade : ℚ := 1/50
deriving DecidableEq, Repr

/-- The default `RiskParameters()` used by the engine when none are given. -/
def defaultRiskParameters : RiskParameters := {}

/-- `src/risk/manager.py`: the mutable state of a `RiskManager`
(`parameters` plus the running `daily_pnl` accumulator). -/
structure RiskState where
  parameters : RiskParameters
  daily_pnl : ℚ := 0
deriving DecidableEq, Repr

/-- `RiskManager.calculate_position_size`.  The translation keeps both
divisions checked, because Python raises `ZeroDivisionError` when `price` is
zero or when a supplied stop-loss price equals the entry price. -/
def calculate_position_size (rp : RiskParameters) (capital price : ℚ)
    (stop_loss_price : Option ℚ) : Option ℚ := do
  let max_position_value := capital * rp.max_position_size
  let max_size ← qdiv? max_position_value price
  match stop_loss_price with
  | some slp =>
      let risk_per_unit := |price - slp|
      let risk_capital := capital * rp.risk_per_trade
      let risk_based_size ← qdiv? risk_capital risk_per_unit
      pure (max 0 (min max_size risk_based_size))
  | none => pure (max 0 max_size)

/-- `RiskManager.should_enter_trade`; the drawdown check divides by
`capital`, which is again a checked division. -/
def should_enter_trade (rs : RiskState) (capital current_equity : ℚ) :
    Option Bool := do
  if rs.parameters.max_daily_loss.isSome ∧
      rs.daily_pnl < -(rs.parameters.max_daily_loss.getD 0) then
    pure false
  else
    match rs.parameters.max_drawdown with
    | some md => do
        let current_dd ← qdiv? (capital - current_equity) capital
        if current_dd > md then pure false else pure true
    | none => pure true

/-- `RiskManager.calculate_stop_loss`. -/
def calculate_stop_loss (rp : RiskParameters) (entry_price : ℚ)
    (side : String) : Option ℚ :=
  match rp.stop_loss_pct with
  | none => none
  | some pct =>
      if side = "long" then some (entry_price * (1 - pct))
      else some (entry_price * (1 + pct))

/-- `RiskManager.calculate_take_profit`. -/
def calculate_take_profit (rp : RiskParameters) (entry_price : ℚ)
    (side : String) : Option ℚ :=
  match rp.take_profit_pct with
  | none => none
  | some pct =>
      if side = "long" then some (entry_price * (1 + pct))
      else some (entry_price * (1 - pct))

/-- `RiskManager.should_exit_trade`: returns `(should_exit, reason)`.  The
`entry_price` argument is unused by the source body and kept for fidelity. -/
def should_exit_trade (current_price : ℚ) (_entry_price : ℚ) (side : String)
    (stop_loss : Option ℚ) (take_profit : Option ℚ) : Bool × String :=
  if side = "long" then
    match stop_loss with
    | some sl =>
        if current_price ≤ sl then (true, "stop_loss")
        else
          match take_profit with
          | some tp => if current_price ≥ tp then (true, "take_profit") else (false, "")
          | none => (false, "")
    | none =>
        match take_profit with
        | some tp => if current_price ≥ tp then (true, "take_profit") else (false, "")
        | none => (false, "")
  else
    match stop_loss with
    | some sl =>
        if current_price ≥ sl then (true, "stop_loss")
        else
          match take_profit with
          | some tp => if current_price ≤ tp then (true, "take_profit") else (false, "")
          | none => (false, "")
    | none =>
        match take_profit with
        | some tp => if current_price ≤ tp then (true, "take_profit") else (false, "")
        | none => (false, "")

/-- `RiskManager.update_daily_pnl`. -/
def update_daily_pnl (rs : RiskState) (pnl : ℚ) : RiskState :=
  { rs with daily_pnl := rs.daily_pnl + pnl }

/-! ## The backtesting engine (`src/backtester/engine.py`) -/

/-- One bar of the OHLCV series as consumed by `_simulate_trading`, which
reads only the timestamp index and the `close` column. -/
structure Bar where
  t : ℕ
  close : ℚ
deriving DecidableEq, Repr

/-- `BacktesterEngine.__init__`: commission and slippage rates. -/
structure EngineConfig where
  commission : ℚ := 1/1000
  slippage : ℚ := 1/1000
deriving DecidableEq, Repr

/-- `signal_dict = {signal.timestamp: signal for signal in signals}`: a later
signal with the same timestamp overwrites an earlier one, so the lookup
returns the last matching signal. -/
def signalLookup (sigs : List TradeSignal) (t : ℕ) : Option TradeSignal :=
  sigs.foldl (fun acc s => if s.timestamp = t then some s else acc) none

/-- Engine lines 184-199: the `Trade` opened on a BUY signal; slippage is
applied to the fill and the entry commission is charged on the filled
position value. -/
def mkEntryTrade (cfg : EngineConfig) (t : ℕ)
    (current_price position_size : ℚ) : Trade :=
  let entry_price := current_price * (1 + cfg.slippage)
  let position_value := position_size * entry_price
  let commission := position_value * cfg.commission
  { entry_time := t, entry_price := entry_price, quantity := position_size,
    side := "long", commission := commission }

/-- Engine lines 204-220 (repeated verbatim at lines 240-254 and 271-286):
closing arithmetic shared by the SELL-signal exit, the stop/take-profit exit
and the end-of-data force close.  Returns the closed trade together with the
net PnL and the exit commission, which the caller uses to update capital.
The `pnl_pct` division is checked (`ZeroDivisionError` when
`quantity * entry_price = 0`). -/
def closeTrade (cfg : EngineConfig) (tr : Trade) (current_price : ℚ)
    (t : ℕ) : Option (Trade × ℚ × ℚ) :=
  let exit_price := current_price * (1 - cfg.slippage)
  let exit_commission := tr.quantity * exit_price * cfg.commission
  let gross_pnl := tr.quantity * (exit_price - tr.entry_price)
  let net_pnl := gross_pnl - tr.commission - exit_commission
  match qdiv? net_pnl (tr.quantity * tr.entry_price) with
  | none => none
  | some pnl_pct =>
      some ({ tr with
            exit_time := some t
            exit_price := some exit_price
            pnl := some net_pnl
            pnl_pct := some pnl_pct
            commission := tr.commission + exit_commission
            is_open := false },
        net_pnl, exit_commission)

/-- One exit-trigger evaluation recorded by the loop: the bar's timestamp,
the stop/take-profit arguments passed to `should_exit_trade`, and whether
the trigger fired.  The source computes these values without storing them;
the embedding records them so theorems can quantify over the calls. -/
structure ExitCheck where
  t : ℕ
  stop_arg : Option ℚ
  take_arg : Option ℚ
  fired : Bool
deriving DecidableEq, Repr

/-- The loop state of `_simulate_trading`: running capital, the equity-curve
accumulator, the closed-trade list, the open trade (if any), the risk
manager's mutable state, the Python loop variable `signal` (which retains
the most recently seen signal across iterations), and the exit-check
trace. -/
structure SimState where
  capital : ℚ
  equity_curve : List ℚ := []
  trades : List Trade := []
  current_trade : Option Trade := none
  risk : RiskState
  lastSignal : Option TradeSignal := none
  exit_checks : List ExitCheck := []
deriving DecidableEq, Repr

/-- Shared closing bookkeeping (engine lines 215-230 / 249-260): record the
closed trade, credit `net_pnl - exit_commission` to capital, clear the open
position and feed the net PnL to the risk manager. -/
def settleClose (cfg : EngineConfig) (st : SimState) (tr : Trade)
    (current_price : ℚ) (t : ℕ) : Option SimState :=
  match closeTrade cfg tr current_price t with
  | none => none
  | some (tr2, net_pnl, exit_commission) =>
      some { st with
        capital := st.capital + net_pnl - exit_commission
        trades := st.trades ++ [tr2]
        current_trade := none
        risk := update_daily_pnl st.risk net_pnl }

/-- Engine lines 172-202: the BUY branch.  Note `should_enter_trade` is
called with the *initial* capital as first argument and the running capital
as current equity, and the computed take-profit level is never used. -/
def buyBranch (cfg : EngineConfig) (initial_capital : ℚ) (st : SimState)
    (t : ℕ) (current_price : ℚ) : Option SimState :=
  match should_enter_trade st.risk initial_capital st.capital with
  | none => none
  | some enter =>
      if enter then
        let stop_loss := calculate_stop_loss st.risk.parameters current_price "long"
        let _take_profit := calculate_take_profit st.risk.parameters current_price "long"
        match calculate_position_size st.risk.parameters st.capital current_price stop_loss with
        | none => none
        | some position_size =>
            if position_size > 0 then
              let trade := mkEntryTrade cfg t current_price position_size
              some { st with
                capital := st.capital - trade.commission
                current_trade := some trade }
            else
              some st
      else
        some st

/-- Engine lines 169-230: signal handling.  When a signal exists at the
current timestamp the Python loop first rebinds the `signal` variable, then
runs the BUY / SELL branch. -/
def signalPhase (cfg : EngineConfig) (initial_capital : ℚ) (st : SimState)
    (t : ℕ) (current_price : ℚ) (sigHere : Option TradeSignal) :
    Option SimState :=
  match sigHere with
  | none => some st
  | some s =>
      let st := { st with lastSignal := some s }
      match s.signal_type, st.current_trade with
      | .buy, none => buyBranch cfg initial_capital st t current_price
      | .sell, some tr => settleClose cfg st tr current_price t
      | _, _ => some st

/-- Engine lines 232-260: on every bar with an open position, evaluate the
stop-loss/take-profit trigger.  The stop/take arguments read the stale
`signal` variable, guarded by `timestamp in signal_dict`. -/
def riskExitPhase (cfg : EngineConfig) (st : SimState) (t : ℕ)
    (current_price : ℚ) (sigIsHere : Bool) : Option SimState :=
  match st.current_trade with
  | none => some st
  | some tr =>
      let stop_arg := if sigIsHere then st.lastSignal.bind TradeSignal.stop_loss else none
      let take_arg := if sigIsHere then st.lastSignal.bind TradeSignal.take_profit else none
      let res := should_exit_trade current_price tr.entry_price tr.side stop_arg take_arg
      let st := { st with
        exit_checks := st.exit_checks ++ [⟨t, stop_arg, take_arg, res.1⟩] }
      if res.1 then settleClose cfg st tr current_price t else some st

/-- Engine lines 262-269: append the bar's equity (capital plus unrealized
PnL of the open position, if any). -/
def equityPhase (st : SimState) (current_price : ℚ) : SimState :=
  let current_equity := st.capital +
    (match st.current_trade with
     | some tr => tr.quantity * (current_price - tr.entry_price)
     | none => 0)
  { st with equity_curve := st.equity_curve ++ [current_equity] }

/-- One iteration of the `for timestamp, row in data.iterrows()` loop. -/
def simStep (cfg : EngineConfig) (initial_capital : ℚ)
    (sigs : List TradeSignal) (st : SimState) (bar : Bar) : Option SimState :=
  let current_price := bar.close
  let sigHere := signalLookup sigs bar.t
  match signalPhase cfg initial_capital st bar.t current_price sigHere with
  | none => none
  | some st1 =>
      match riskExitPhase cfg st1 bar.t current_price sigHere.isSome with
      | none => none
      | some st2 => some (equityPhase st2 current_price)

/-- The loop state at entry of `_simulate_trading`. -/
def initSimState (rp : RiskParameters) (initial_capital : ℚ) : SimState :=
  { capital := initial_capital, risk := { parameters := rp } }

/-! ## Performance metrics (`src/backtester/metrics.py`) -/

/-- `PerformanceMetrics.calculate_trade_metrics` output. `profit_factor` is
`none` when the source returns `float('inf')` (no losing trades). -/
structure TradeMetrics where
  total_trades : ℕ
  winning_trades : ℕ
  losing_trades : ℕ
  win_rate : ℚ
  avg_win : ℚ
  avg_loss : ℚ
  profit_factor : Option ℚ
deriving DecidableEq, Repr

/-- `PerformanceMetrics.calculate_trade_metrics`.  Note that when the trade
list is nonempty but no trade is closed, the source reports
`total_trades = len(trades)` while all other statistics are zero. -/
def calculate_trade_metrics (trades : List Trade) : TradeMetrics :=
  if trades = [] then
    ⟨0, 0, 0, 0, 0, 0, some 0⟩
  else
    let closed_trades := trades.filter (fun t => !t.is_open && t.pnl.isSome)
    if closed_trades = [] then
      ⟨trades.length, 0, 0, 0, 0, 0, some 0⟩
    else
      let winning := closed_trades.filter (fun t => 0 < t.pnl.getD 0)
      let losing := closed_trades.filter (fun t => t.pnl.getD 0 < 0)
      let total := closed_trades.length
      let num_w := winning.length
      let num_l := losing.length
      let win_rate : ℚ := if 0 < total then (num_w : ℚ) / (total : ℚ) else 0
      let sum_w := (winning.map (fun t => t.pnl.getD 0)).sum
      let sum_l := (losing.map (fun t => t.pnl.getD 0)).sum
      let avg_win := if 0 < num_w then sum_w / (num_w : ℚ) else 0
      let avg_loss := if 0 < num_l then |sum_l / (num_l : ℚ)| else 0
      let total_losses := |sum_l|
      let profit_factor := if 0 < total_losses then some (sum_w / total_losses) else none
      ⟨total, num_w, num_l, win_rate, avg_win, avg_loss, profit_factor⟩

/-- Running maximum (`equity_curve.expanding().max()`), auxiliary. -/
def expandingMaxAux (m : ℚ) : List ℚ → List ℚ
  | [] => []
  | x :: xs => max m x :: expandingMaxAux (max m x) xs

/-- Running maximum (`equity_curve.expanding().max()`). -/
def expandingMax : List ℚ → List ℚ
  | [] => []
  | x :: xs => x :: expandingMaxAux x xs

/-- Minimum of a list (pandas `.min()`); only applied to nonempty lists. -/
def listMin : List ℚ → ℚ
  | [] => 0
  | x :: xs => xs.foldl min x

/-- `PerformanceMetrics.calculate_max_drawdown`, absolute part:
`abs(min(equity - expanding_max(equity)))`.  (The percentage variant divides
each drawdown by the running peak, a pointwise float division that no claim
below depends on, so it is not carried in the embedded results.) -/
def calculate_max_drawdown (equity : List ℚ) : ℚ :=
  let peak := expandingMax equity
  let drawdown := List.zipWith (fun a b => a - b) equity peak
  |listMin drawdown|

/-- `BacktestResults`, restricted to the fields with exact rational
semantics.  `sharpe_ratio`, `max_drawdown_pct`, `calmar_ratio` and
`drawdown_series` involve square roots or unguarded pointwise divisions and
are not referenced by any claim, so they are not embedded. -/
structure BacktestResults where
  initial_capital : ℚ
  final_capital : ℚ
  total_return : ℚ
  total_return_pct : ℚ
  trades : List Trade := []
  total_trades : ℕ := 0
  winning_trades : ℕ := 0
  losing_trades : ℕ := 0
  win_rate : ℚ := 0
  max_drawdown : ℚ := 0
  avg_win : ℚ := 0
  avg_loss : ℚ := 0
  profit_factor : Option ℚ := some 0
  equity_curve : List ℚ := []
deriving DecidableEq, Repr

/-- `PerformanceMetrics.calculate_all_metrics`: `final_capital` is the last
point of the equity curve (`equity_curve.iloc[-1]`); the empty-curve guard
returns the zero-change results. -/
def calculate_all_metrics (initial_capital : ℚ) (equity_curve : List ℚ)
    (trades : List Trade) : BacktestResults :=
  match equity_curve with
  | [] =>
      { initial_capital := initial_capital
        final_capital := initial_capital
        total_return := 0
        total_return_pct := 0 }
  | e :: es =>
      let final_capital := (e :: es).getLastD 0
      let total_return := final_capital - initial_capital
      let total_return_pct :=
        if 0 < initial_capital then total_return / initial_capital else 0
      let tm := calculate_trade_metrics trades
      { initial_capital := initial_capital
        final_capital := final_capital
        total_return := total_return
        total_return_pct := total_return_pct
        trades := trades
        total_trades := tm.total_trades
        winning_trades := tm.winning_trades
        losing_trades := tm.losing_trades
        win_rate := tm.win_rate
        max_drawdown := calculate_max_drawdown (e :: es)
        avg_win := tm.avg_win
        avg_loss := tm.avg_loss
        profit_factor := tm.profit_factor
        equity_curve := e :: es }

/-- Engine lines 271-289: after the loop, a still-open position is closed
at the last bar's close (`data.iloc[-1]`), extending the trade list but not
the equity curve.  (The source also adds `net_pnl - exit_commission` to the
`capital` variable there, but that variable is never read again.) -/
def forceCloseTrades (cfg : EngineConfig) (data : List Bar) (stLoop : SimState) :
    Option (List Trade) :=
  match stLoop.current_trade with
  | some tr =>
      match data.getLast? with
      | some lastBar =>
          match closeTrade cfg tr lastBar.close lastBar.t with
          | none => none
          | some (tr2, _net_pnl, _exit_commission) => some (stLoop.trades ++ [tr2])
      | none => none
  | none => some stLoop.trades

/-- `BacktesterEngine._simulate_trading`: the bar loop, the end-of-data
force close, and the final metrics call.  The returned `SimState` is the
loop state before the force close, so theorems can refer to whether a
position was still open at the last bar; `none` models a Python exception
escaping the simulation. -/
def simulate_trading (cfg : EngineConfig) (rp : RiskParameters)
    (data : List Bar) (sigs : List TradeSignal) (initial_capital : ℚ) :
    Option (SimState × BacktestResults) :=
  match data.foldlM (simStep cfg initial_capital sigs) (initSimState rp initial_capital) with
  | none => none
  | some stLoop =>
      match forceCloseTrades cfg data stLoop with
      | none => none
      | some finalTrades =>
          some (stLoop, calculate_all_metrics initial_capital stLoop.equity_curve finalTrades)

/-! ## Strategies (`src/strategies/`)

Each strategy scans the series once, keeping the implicit position state
(`None`/`'long'`/`'short'`).  The indicator columns the loops read (RSI,
MACD, Bollinger bands, EMAs and their slopes) are produced by the external
`ta`/pandas libraries in the source, so the embedding takes them as inputs:
one row record per bar, with `Option ℚ` cells where pandas may hold `NaN`.
Comparisons against a `NaN` cell are `false`, as for IEEE floats.  Python
exceptions (the OHLCV validation `ValueError` and `ZeroDivisionError` in the
confidence arithmetic) are modelled by `Except String`. -/

/-- `BaseStrategy.validate_data`: the five required OHLCV columns. -/
def requiredColumns : List String := ["open", "high", "low", "close", "volume"]

/-- `BaseStrategy.validate_data`. -/
def validate_data (columns : List String) : Bool :=
  requiredColumns.all (fun c => columns.contains c)

/-- The exact message of the `ValueError` every strategy raises on
validation failure. -/
def invalidDataMsg : String := "Datos inválidos: faltan columnas OHLCV"

/-- Marker for a Python `ZeroDivisionError`. -/
def divByZeroMsg : String := "ZeroDivisionError"

/-- Python float division inside strategy loops. -/
def ediv (a b : ℚ) : Except String ℚ :=
  if b = 0 then .error divByZeroMsg else .ok (a / b)

/-- `a < b` on possibly-`NaN` floats: false when either side is `NaN`. -/
def optLt : Option ℚ → Option ℚ → Bool
  | some a, some b => a < b
  | _, _ => false

/-- `a ≤ b` on possibly-`NaN` floats: false when either side is `NaN`. -/
def optLe : Option ℚ → Option ℚ → Bool
  | some a, some b => a ≤ b
  | _, _ => false

/-- `a > b` on possibly-`NaN` floats. -/
def optGt (a b : Option ℚ) : Bool := optLt b a

/-- `a ≥ b` on possibly-`NaN` floats. -/
def optGe (a b : Option ℚ) : Bool := optLe b a

/-- Adjacent pairs `(rows[i-1], rows[i])` for `i in range(1, len(rows))`. -/
def adjPairs {α : Type} (rows : List α) : List (α × α) :=
  rows.zip (rows.drop 1)

/-- `RSIStrategy` constructor parameters (the RSI period only selects the
input column's computation and does not appear in the loop). -/
structure RSIParams where
  buy_threshold : ℚ := 30
  sell_threshold : ℚ := 70
deriving DecidableEq, Repr

/-- One bar as read by the RSI strategy loop. -/
structure RSIRow where
  t : ℕ
  close : ℚ
  rsi : Option ℚ
deriving DecidableEq, Repr

/-- One iteration of `RSIStrategy.generate_signals`' scan. -/
def rsiStep (p : RSIParams) (acc : List TradeSignal × Option String)
    (pr : RSIRow × RSIRow) : Except String (List TradeSignal × Option String) :=
  let (prev, cur) := pr
  match prev.rsi, cur.rsi with
  | some previous_rsi, some current_rsi =>
      if previous_rsi ≥ p.buy_threshold ∧ current_rsi < p.buy_threshold ∧
          acc.2 ≠ some "long" then
        match ediv (p.buy_threshold - current_rsi) p.buy_threshold with
        | .error e => .error e
        | .ok c =>
            let confidence := max (1/10) (min 1 c)
            .ok (acc.1 ++ [{ timestamp := cur.t, signal_type := .buy, price := cur.close,
                             confidence := confidence, reason := "RSI oversold" }],
                 some "long")
      else if previous_rsi ≤ p.sell_threshold ∧ current_rsi > p.sell_threshold ∧
          acc.2 = some "long" then
        match ediv (current_rsi - p.sell_threshold) (100 - p.sell_threshold) with
        | .error e => .error e
        | .ok c =>
            let confidence := max (1/10) (min 1 c)
            .ok (acc.1 ++ [{ timestamp := cur.t, signal_type := .sell, price := cur.close,
                             confidence := confidence, reason := "RSI overbought" }],
                 none)
      else
        .ok acc
  | _, _ => .ok acc

/-- `RSIStrategy.generate_signals`. -/
def rsi_generate_signals (p : RSIParams) (columns : List String)
    (rows : List RSIRow) : Except String (List TradeSignal) :=
  if !validate_data columns then
    .error invalidDataMsg
  else
    match (adjPairs rows).foldlM (rsiStep p) ([], none) with
    | .error e => .error e
    | .ok res => .ok res.1

/-- One bar as read by the MACD strategy loop. -/
structure MACDRow where
  t : ℕ
  close : ℚ
  macd : Option ℚ
  macd_signal : Option ℚ
deriving DecidableEq, Repr

/-- One iteration of `MACDStrategy.generate_signals`' scan (no divisions, so
the step is pure). -/
def macdStep (acc : List TradeSignal × Option String)
    (pr : MACDRow × MACDRow) : List TradeSignal × Option String :=
  let (prev, cur) := pr
  match cur.macd, cur.macd_signal with
  | some current_macd, some current_signal =>
      if optLe prev.macd prev.macd_signal ∧ current_macd > current_signal ∧
          acc.2 ≠ some "long" then
        (acc.1 ++ [{ timestamp := cur.t, signal_type := .buy, price := cur.close,
                     confidence := 4/5, reason := "MACD bullish crossover" }],
         some "long")
      else if optGe prev.macd prev.macd_signal ∧ current_macd < current_signal ∧
          acc.2 = some "long" then
        (acc.1 ++ [{ timestamp := cur.t, signal_type := .sell, price := cur.close,
                     confidence := 4/5, reason := "MACD bearish crossover" }],
         none)
      else acc
  | _, _ => acc

/-- `MACDStrategy.generate_signals`. -/
def macd_generate_signals (columns : List String) (rows : List MACDRow) :
    Except String (List TradeSignal) :=
  if !validate_data columns then .error invalidDataMsg
  else .ok ((adjPairs rows).foldl macdStep ([], none)).1

/-- One bar as read by the Bollinger-bands strategy loop. -/
structure BBRow where
  t : ℕ
  close : ℚ
  bb_lower : Option ℚ
  bb_upper : Option ℚ
deriving DecidableEq, Repr

/-- One iteration of `BollingerBandsStrategy.generate_signals`' scan. -/
def bbStep (acc : List TradeSignal × Option String)
    (pr : BBRow × BBRow) : List TradeSignal × Option String :=
  let (prev, cur) := pr
  match cur.bb_lower, cur.bb_upper with
  | some current_lower, some current_upper =>
      if optGt (some prev.close) prev.bb_lower ∧ cur.close ≤ current_lower ∧
          acc.2 ≠ some "long" then
        (acc.1 ++ [{ timestamp := cur.t, signal_type := .buy, price := cur.close,
                     confidence := 7/10,
                     reason := "Price touched lower Bollinger Band" }],
         some "long")
      else if optLt (some prev.close) prev.bb_upper ∧ cur.close ≥ current_upper ∧
          acc.2 = some "long" then
        (acc.1 ++ [{ timestamp := cur.t, signal_type := .sell, price := cur.close,
                     confidence := 7/10,
                     reason := "Price touched upper Bollinger Band" }],
         none)
      else acc
  | _, _ => acc

/-- `BollingerBandsStrategy.generate_signals`. -/
def bb_generate_signals (columns : List String) (rows : List BBRow) :
    Except String (List TradeSignal) :=
  if !validate_data columns then .error invalidDataMsg
  else .ok ((adjPairs rows).foldl bbStep ([], none)).1

/-- `EMAStrategy` (EMA Triple) constructor parameters. -/
structure EMAParams where
  fast_ema : ℕ := 20
  medium_ema : ℕ := 55
  slow_ema : ℕ := 200
  min_trend_strength : ℚ := 1/1000
  allow_longs : Bool := true
  allow_shorts : Bool := false
  trend_filter : Bool := true
deriving DecidableEq, Repr

/-- One bar as read by the EMA Triple loop (EMAs and the 5/10-bar
percentage-change slopes are pandas-computed columns, hence inputs). -/
structure EMARow where
  t : ℕ
  close : ℚ
  ema_fast : Option ℚ
  ema_medium : Option ℚ
  ema_slow : Option ℚ
  ema_fast_slope : Option ℚ
  ema_medium_slope : Option ℚ
deriving DecidableEq, Repr

/-- One iteration of `EMAStrategy.generate_signals`' scan; the first
component of the input is the zero-based position of the pair, so the
current bar index is `j + 1` and the loop body runs only from index
`max(slow_ema, 10)` on. -/
def emaStep (p : EMAParams) (acc : List TradeSignal × Option String)
    (ipr : ℕ × (EMARow × EMARow)) :
    Except String (List TradeSignal × Option String) :=
  let (j, prev, cur) := ipr
  if j + 1 < max p.slow_ema 10 then .ok acc
  else
    match cur.ema_fast, cur.ema_medium, cur.ema_slow with
    | some fast, some medium, some slow =>
        let current_price := cur.close
        let bullish_alignment := optGt (some fast) (some medium) &&
          optGt (some medium) (some slow)
        let bearish_alignment := optLt (some fast) (some medium) &&
          optLt (some medium) (some slow)
        let strong_bullish_trend := optGt cur.ema_fast_slope (some p.min_trend_strength) &&
          optGt cur.ema_medium_slope (some 0)
        let strong_bearish_trend := optLt cur.ema_fast_slope (some (-p.min_trend_strength)) &&
          optLt cur.ema_medium_slope (some 0)
        let price_cross_above_fast := optLe (some prev.close) prev.ema_fast &&
          optGt (some current_price) (some fast)
        let price_cross_below_fast := optGe (some prev.close) prev.ema_fast &&
          optLt (some current_price) (some fast)
        if p.allow_longs ∧ acc.2 ≠ some "long" ∧ price_cross_above_fast then
          let trend_ok := if p.trend_filter then bullish_alignment else true
          if trend_ok ∧ strong_bullish_trend then
            match cur.ema_fast_slope with
            | some slope =>
                let alignment_score : ℚ := if bullish_alignment then 3/5 else 3/10
                (match ediv slope p.min_trend_strength with
                 | .error e => .error e
                 | .ok q =>
                     let strength_score := min (q * (2/5)) (2/5)
                     let confidence := min (alignment_score + strength_score) 1
                     .ok (acc.1 ++ [{ timestamp := cur.t, signal_type := .buy,
                                      price := current_price, confidence := confidence,
                                      reason := "EMA bullish cross" }],
                          some "long"))
            | none => .ok acc
          else
            .ok acc
        else if p.allow_shorts ∧ acc.2 ≠ some "short" ∧ price_cross_below_fast then
          let trend_ok := if p.trend_filter then bearish_alignment else true
          if trend_ok ∧ strong_bearish_trend then
            match cur.ema_fast_slope with
            | some slope =>
                let alignment_score : ℚ := if bearish_alignment then 3/5 else 3/10
                (match ediv |slope| p.min_trend_strength with
                 | .error e => .error e
                 | .ok q =>
                     let strength_score := min (q * (2/5)) (2/5)
                     let confidence := min (alignment_score + strength_score) 1
                     .ok (acc.1 ++ [{ timestamp := cur.t, signal_type := .sell,
                                      price := current_price, confidence := confidence,
                                      reason := "EMA bearish cross" }],
                          some "short"))
            | none => .ok acc
          else
            .ok acc
        else if acc.2 = some "long" then
          let exit_condition :=
            (price_cross_below_fast && optLt cur.ema_fast_slope (some 0)) ||
            (p.trend_filter && !bullish_alignment && optLt (some fast) (some medium))
          if exit_condition then
            .ok (acc.1 ++ [{ timestamp := cur.t, signal_type := .sell,
                             price := current_price, confidence := 4/5,
                             reason := "EMA trend reversal - Exit LONG" }],
                 none)
          else
            .ok acc
        else if acc.2 = some "short" then
          let exit_condition :=
            (price_cross_above_fast && optGt cur.ema_fast_slope (some 0)) ||
            (p.trend_filter && !bearish_alignment && optGt (some fast) (some medium))
          if exit_condition then
            .ok (acc.1 ++ [{ timestamp := cur.t, signal_type := .sell,
                             price := current_price, confidence := 4/5,
                             reason := "EMA trend reversal - Exit SHORT" }],
                 none)
          else
            .ok acc
        else
          .ok acc
    | _, _, _ => .ok acc

/-- `EMAStrategy.generate_signals`. -/
def ema_generate_signals (p : EMAParams) (columns : List String)
    (rows : List EMARow) : Except String (List TradeSignal) :=
  if !validate_data columns then
    .error invalidDataMsg
  else
    match (adjPairs rows).enum.foldlM (emaStep p) ([], none) with
    | .error e => .error e
    | .ok res => .ok res.1

/-- One bar as read by the Golden/Death-cross loop. -/
structure GCRow where
  t : ℕ
  close : ℚ
  ema_fast : Option ℚ
  ema_slow : Option ℚ
deriving DecidableEq, Repr

/-- One iteration of `EMAGoldenCrossStrategy.generate_signals`' scan. -/
def gcStep (acc : List TradeSignal × Option String)
    (pr : GCRow × GCRow) : List TradeSignal × Option String :=
  let (prev, cur) := pr
  match cur.ema_fast, cur.ema_slow with
  | some fast, some slow =>
      if optLe prev.ema_fast prev.ema_slow ∧ fast > slow ∧ acc.2 ≠ some "long" then
        (acc.1 ++ [{ timestamp := cur.t, signal_type := .buy, price := cur.close,
                     confidence := 4/5, reason := "Golden Cross" }],
         some "long")
      else if optGe prev.ema_fast prev.ema_slow ∧ fast < slow ∧ acc.2 = some "long" then
        (acc.1 ++ [{ timestamp := cur.t, signal_type := .sell, price := cur.close,
                     confidence := 4/5, reason := "Death Cross" }],
         none)
      else acc
  | _, _ => acc

/-- `EMAGoldenCrossStrategy.generate_signals`. -/
def gc_generate_signals (columns : List String) (rows : List GCRow) :
    Except String (List TradeSignal) :=
  if !validate_data columns then .error invalidDataMsg
  else .ok ((adjPairs rows).foldl gcStep ([], none)).1

/-! ## Indicators and DataFrame augmentation (`src/indicators/technical.py`)

A pandas `DataFrame` is modelled as an ordered association list of named
columns; a column cell is `Option ℚ` (`none` = `NaN`).  `df['c'] = v`
overwrites an existing column in place or appends a new one.  Python objects
live in a store (a list of frames addressed by index), so that `.copy()`
versus in-place mutation is observable: `add_all_indicators` first copies
its argument into a fresh object and mutates only the copy. -/

/-- A pandas column. -/
abbrev Series := List (Option ℚ)

/-- A pandas frame: named columns in order. -/
abbrev DataFrame := List (String × Series)

/-- Column lookup (`df['name']`). -/
def getCol (df : DataFrame) (name : String) : Option Series :=
  (df.find? (fun p => p.1 = name)).map Prod.snd

/-- Column lookup with default (only used on frames known to carry the
column). -/
def colD (df : DataFrame) (name : String) : Series :=
  (getCol df name).getD []

/-- Column assignment (`df['name'] = v`): overwrite in place or append. -/
def setCol : DataFrame → String → Series → DataFrame
  | [], name, v => [(name, v)]
  | p :: rest, name, v =>
      if p.1 = name then (name, v) :: rest else p :: setCol rest name v

/-- Mean of a rolling window; `NaN` (undefined) if any cell is missing. -/
def windowMean (w : List (Option ℚ)) (period : ℕ) : Option ℚ :=
  if w.all Option.isSome then
    some ((w.map (fun c => c.getD 0)).sum / (period : ℚ))
  else none

/-- `TechnicalIndicators.sma`: rolling mean, undefined for the first
`period - 1` positions. -/
def sma (s : Series) (period : ℕ) : Series :=
  (List.range s.length).map (fun i =>
    if i + 1 < period then none
    else windowMean ((s.take (i + 1)).drop (i + 1 - period)) period)

/-- `TechnicalIndicators.ema` recursion (`ewm(span=period, adjust=False)`):
`e₀ = x₀`, `eᵢ = α xᵢ + (1 - α) eᵢ₋₁` with `α = 2 / (period + 1)`;
`NaN` cells are skipped, carrying the accumulator forward. -/
def emaGo (α : ℚ) (prev : Option ℚ) : Series → Series
  | [] => []
  | none :: xs => none :: emaGo α prev xs
  | some x :: xs =>
      let e := match prev with
        | none => x
        | some pe => α * x + (1 - α) * pe
      some e :: emaGo α (some e) xs

/-- `TechnicalIndicators.ema`. -/
def ema (s : Series) (period : ℕ) : Series :=
  emaGo (2 / ((period : ℚ) + 1)) none s

/-- `TechnicalIndicators.volume_sma`: rolling mean with window 20. -/
def volume_sma (s : Series) : Series := sma s 20

/-- The indicator formulas that `technical.py` delegates to the external
`ta` library (`rsi`, `macd`, `bollinger_bands`, `stochastic`, `atr`,
`adx`).  They are third-party code outside this repository, so the
embedding abstracts them as arbitrary series transformers; every theorem
below holds for any such functions. -/
structure TaLib where
  rsi : Series → Series
  macd : Series → Series × Series × Series
  bollinger : Series → Series × Series × Series
  stoch : Series → Series → Series → Series × Series
  atr : Series → Series → Series → Series
  adx : Series → Series → Series → Series

/-- The sixteen columns `add_all_indicators` installs, in assignment
order. -/
def indicatorColumns : List String :=
  ["sma_20", "sma_50", "ema_12", "ema_26", "rsi", "macd", "macd_signal",
   "macd_histogram", "bb_upper", "bb_middle", "bb_lower", "stoch_k",
   "stoch_d", "atr", "adx", "volume_sma"]

/-- The body of `add_all_indicators` after `df = df.copy()`: the sixteen
column assignments, each reading the frame as mutated so far. -/
def add_all_indicators_frame (ta : TaLib) (df0 : DataFrame) : DataFrame :=
  let d1 := setCol df0 "sma_20" (sma (colD df0 "close") 20)
  let d2 := setCol d1 "sma_50" (sma (colD d1 "close") 50)
  let d3 := setCol d2 "ema_12" (ema (colD d2 "close") 12)
  let d4 := setCol d3 "ema_26" (ema (colD d3 "close") 26)
  let d5 := setCol d4 "rsi" (ta.rsi (colD d4 "close"))
  let m := ta.macd (colD d5 "close")
  let d6 := setCol d5 "macd" m.1
  let d7 := setCol d6 "macd_signal" m.2.1
  let d8 := setCol d7 "macd_histogram" m.2.2
  let b := ta.bollinger (colD d8 "close")
  let d9 := setCol d8 "bb_upper" b.1
  let d10 := setCol d9 "bb_middle" b.2.1
  let d11 := setCol d10 "bb_lower" b.2.2
  let sk := ta.stoch (colD d11 "high") (colD d11 "low") (colD d11 "close")
  let d12 := setCol d11 "stoch_k" sk.1
  let d13 := setCol d12 "stoch_d" sk.2
  let d14 := setCol d13 "atr"
    (ta.atr (colD d13 "high") (colD d13 "low") (colD d13 "close"))
  let d15 := setCol d14 "adx"
    (ta.adx (colD d14 "high") (colD d14 "low") (colD d14 "close"))
  setCol d15 "volume_sma" (volume_sma (colD d15 "volume"))

/-- The object store: Python frame objects addressed by index. -/
abbrev Store := List DataFrame

/-- Dereference an object. -/
def getObj (s : Store) (i : ℕ) : DataFrame := s.getD i []

/-- `TechnicalIndicators.add_all_indicators` at the object level:
`df = df.copy()` allocates a fresh object initialised with the argument's
contents, the sixteen assignments then mutate only that copy, and its
address is returned. -/
def add_all_indicators (ta : TaLib) (s : Store) (i : ℕ) : Store × ℕ :=
  let df := getObj s i
  ((s ++ [df]).set s.length (add_all_indicators_frame ta df), s.length)

/-- A concrete trivial `ta`-library instance for witnesses. -/
def cexTa : TaLib :=
  { rsi := fun _ => []
    macd := fun _ => ([], [], [])
    bollinger := fun _ => ([], [], [])
    stoch := fun _ _ _ => ([], [])
    atr := fun _ _ _ => []
    adx := fun _ _ _ => [] }

/-- A concrete one-object store holding a two-column frame, for the
indicator witness. -/
def cexStore : Store := [[("close", [some 1]), ("volume", [some 2])]]

/-! ## Derived quantities and concrete inputs used by the theorems below -/

/-- Sum of the recorded per-trade PnL over a trade list. -/
def closedPnlSum (trades : List Trade) : ℚ :=
  (trades.map (fun tr => tr.pnl.getD 0)).sum

/-- Sum of per-trade PnL net of the trade's accumulated commissions. -/
def pnlMinusCommissionSum (trades : List Trade) : ℚ :=
  (trades.map (fun tr => tr.pnl.getD 0 - tr.commission)).sum

/-- Unrealized PnL of the open position, as added to the equity curve. -/
def unrealizedPnl (st : SimState) (price : ℚ) : ℚ :=
  match st.current_trade with
  | some tr => tr.quantity * (price - tr.entry_price)
  | none => 0

/-- A concrete engine configuration: the default commission and slippage
(0.1% each). -/
def cexCfg : EngineConfig := { commission := 1/1000, slippage := 1/1000 }

/-- A concrete three-bar price series. -/
def cexData : List Bar := [⟨0, 100⟩, ⟨1, 110⟩, ⟨2, 105⟩]

/-- A concrete buy-then-sell signal pair (no protective levels, as emitted
by the bundled strategies). -/
def cexSigs : List TradeSignal :=
  [{ timestamp := 0, signal_type := .buy, price := 100 },
   { timestamp := 1, signal_type := .sell, price := 110 }]

/-! ## Loop invariants used by the engine theorems -/

/-- Every recorded trade and the open position (if any) is a long. -/
def sidesLongInv (st : SimState) : Prop :=
  (∀ tr ∈ st.trades, tr.side = "long") ∧
  (∀ tr, st.current_trade = some tr → tr.side = "long")

/-- Every recorded trade is closed with a recorded PnL. -/
def allClosedInv (st : SimState) : Prop :=
  ∀ tr ∈ st.trades, tr.is_open = false ∧ tr.pnl.isSome = true

/-- Every recorded exit check passed exactly the stop/take-profit levels of
the signal at that bar's timestamp (or `none` without such a signal). -/
def exitChecksArgsInv (sigs : List TradeSignal) (st : SimState) : Prop :=
  ∀ c ∈ st.exit_checks,
    c.stop_arg = (signalLookup sigs c.t).bind TradeSignal.stop_loss ∧
    c.take_arg = (signalLookup sigs c.t).bind TradeSignal.take_profit

/-- The Python `signal` variable only ever holds signals from the input
list, and no recorded exit check has fired. -/
def neverFiredInv (sigs : List TradeSignal) (st : SimState) : Prop :=
  (∀ s, st.lastSignal = some s → s ∈ sigs) ∧
  ∀ c ∈ st.exit_checks, c.fired = false

/-- Cash accounting: the running capital equals the initial capital, plus
each closed trade's PnL minus its total commission, minus the entry
commission already charged for the open position (if any). -/
def capitalInv (init : ℚ) (st : SimState) : Prop :=
  st.capital = init + pnlMinusCommissionSum st.trades -
    (match st.current_trade with
     | some tr => tr.commission
     | none => 0)

/-! ## General lemmas -/

theorem qdiv?_eq_some {a b : ℚ} (h : b ≠ 0) : qdiv? a b = some (a / b) := by
  simp [qdiv?, h]

theorem qdiv?_eq_none {a b : ℚ} (h : b = 0) : qdiv? a b = none := by
  simp [qdiv?, h]

/-- Any invariant preserved by each successful step is carried through a
successful `foldlM` over `Option`. -/
theorem foldlM_option_invariant {α β : Type} {f : β → α → Option β} (P : β → Prop)
    (hstep : ∀ st a st', f st a = some st' → P st → P st') :
    ∀ (l : List α) {st0 st1 : β}, l.foldlM f st0 = some st1 → P st0 → P st1 := by
  intro l
  induction l with
  | nil =>
      intro st0 st1 h hP
      simp only [List.foldlM_nil, Option.pure_def, Option.some.injEq] at h
      exact h ▸ hP
  | cons a tl ih =>
      intro st0 st1 h hP
      rw [List.foldlM_cons] at h
      cases hfa : f st0 a with
      | none => rw [hfa] at h; exact absurd h (by simp)
      | some st' =>
          rw [hfa] at h
          exact ih h (hstep st0 a st' hfa hP)

theorem signalLookup_aux {t : ℕ} :
    ∀ (l : List TradeSignal) (acc : Option TradeSignal) (s : TradeSignal),
      l.foldl (fun a x => if x.timestamp = t then some x else a) acc = some s →
      s ∈ l ∨ acc = some s := by
  intro l
  induction l with
  | nil =>
      intro acc s h
      right
      simpa using h
  | cons x tl ih =>
      intro acc s h
      rw [List.foldl_cons] at h
      rcases ih _ s h with hmem | hacc
      · exact Or.inl (List.mem_cons_of_mem x hmem)
      · by_cases hx : x.timestamp = t
        · simp only [hx, if_pos, Option.some.injEq] at hacc
          exact Or.inl (hacc ▸ List.mem_cons_self x tl)
        · simp only [hx, if_neg, ite_false] at hacc
          exact Or.inr hacc

/-- A successful signal lookup returns a signal from the list. -/
theorem signalLookup_mem {sigs : List TradeSignal} {t : ℕ} {s : TradeSignal}
    (h : signalLookup sigs t = some s) : s ∈ sigs := by
  rcases signalLookup_aux sigs none s h with hmem | habs
  · exact hmem
  · cases habs

theorem calculate_position_size_none_eq (rp : RiskParameters) (capital price : ℚ)
    (h : price ≠ 0) :
    calculate_position_size rp capital price none =
      some (max 0 (capital * rp.max_position_size / price)) := by
  simp [calculate_position_size, qdiv?_eq_some h]

theorem calculate_position_size_some_eq (rp : RiskParameters) (capital price slp : ℚ)
    (h : price ≠ 0) (h2 : |price - slp| ≠ 0) :
    calculate_position_size rp capital price (some slp) =
      some (max 0 (min (capital * rp.max_position_size / price)
        (capital * rp.risk_per_trade / |price - slp|))) := by
  simp [calculate_position_size, qdiv?_eq_some h, qdiv?_eq_some h2]

/-- Explicit form of a successful `closeTrade`. -/
theorem closeTrade_eq (cfg : EngineConfig) (tr : Trade) (price : ℚ) (t : ℕ)
    (h : tr.quantity * tr.entry_price ≠ 0) :
    closeTrade cfg tr price t =
      some ({ tr with
                exit_time := some t
                exit_price := some (price * (1 - cfg.slippage))
                pnl := some (tr.quantity * (price * (1 - cfg.slippage) - tr.entry_price)
                  - tr.commission - tr.quantity * (price * (1 - cfg.slippage)) * cfg.commission)
                pnl_pct := some ((tr.quantity * (price * (1 - cfg.slippage) - tr.entry_price)
                  - tr.commission - tr.quantity * (price * (1 - cfg.slippage)) * cfg.commission)
                  / (tr.quantity * tr.entry_price))
                commission := tr.commission + tr.quantity * (price * (1 - cfg.slippage)) * cfg.commission
                is_open := false },
            tr.quantity * (price * (1 - cfg.slippage) - tr.entry_price)
              - tr.commission - tr.quantity * (price * (1 - cfg.slippage)) * cfg.commission,
            tr.quantity * (price * (1 - cfg.slippage)) * cfg.commission) := by
  simp [closeTrade, qdiv?_eq_some h]

/-- Field values of a trade closed by `closeTrade`. -/
theorem closeTrade_some_fields {cfg : EngineConfig} {tr : Trade} {price : ℚ} {t : ℕ}
    {tr2 : Trade} {net ec : ℚ}
    (h : closeTrade cfg tr price t = some (tr2, net, ec)) :
    tr2.is_open = false ∧ tr2.side = tr.side ∧ tr2.pnl = some net ∧
    tr2.exit_time = some t ∧ tr2.commission = tr.commission + ec ∧
    tr2.quantity = tr.quantity ∧ tr2.entry_price = tr.entry_price := by
  simp only [closeTrade] at h
  cases hq : qdiv? (tr.quantity * (price * (1 - cfg.slippage) - tr.entry_price)
      - tr.commission - tr.quantity * (price * (1 - cfg.slippage)) * cfg.commission)
      (tr.quantity * tr.entry_price) with
  | none =>
      rw [hq] at h
      cases h
  | some pct =>
      rw [hq] at h
      simp only [Option.some.injEq, Prod.mk.injEq] at h
      obtain ⟨ha, hb, hc⟩ := h
      subst ha
      subst hb
      subst hc
      simp

theorem equityPhase_eq (st : SimState) (price : ℚ) :
    equityPhase st price =
      { st with equity_curve := st.equity_curve ++ [st.capital + unrealizedPnl st price] } := by
  unfold equityPhase unrealizedPnl
  rfl

theorem settleClose_cases {cfg : EngineConfig} {st : SimState} {tr : Trade}
    {price : ℚ} {t : ℕ} {st' : SimState}
    (h : settleClose cfg st tr price t = some st') :
    ∃ tr2 net ec, closeTrade cfg tr price t = some (tr2, net, ec) ∧
      st' = { st with
              capital := st.capital + net - ec
              trades := st.trades ++ [tr2]
              current_trade := none
              risk := update_daily_pnl st.risk net } := by
  unfold settleClose at h
  cases hc : closeTrade cfg tr price t with
  | none => rw [hc] at h; cases h
  | some v =>
      obtain ⟨tr2, net, ec⟩ := v
      rw [hc] at h
      exact ⟨tr2, net, ec, rfl, (Option.some.injEq _ _).mp h |>.symm⟩

theorem buyBranch_cases {cfg : EngineConfig} {init : ℚ} {st : SimState}
    {t : ℕ} {price : ℚ} {st' : SimState}
    (h : buyBranch cfg init st t price = some st') :
    st' = st ∨
    ∃ ps, 0 < ps ∧
      st' = { st with
              capital := st.capital - (mkEntryTrade cfg t price ps).commission
              current_trade := some (mkEntryTrade cfg t price ps) } := by
  unfold buyBranch at h
  cases he : should_enter_trade st.risk init st.capital with
  | none => rw [he] at h; cases h
  | some enter =>
      rw [he] at h
      by_cases hent : enter
      · simp only [hent, if_true] at h
        cases hps : calculate_position_size st.risk.parameters st.capital price
            (calculate_stop_loss st.risk.parameters price "long") with
        | none => rw [hps] at h; cases h
        | some ps =>
            rw [hps] at h
            by_cases hpos : ps > 0
            · right
              refine ⟨ps, hpos, ?_⟩
              simp only [hpos, if_true] at h
              exact ((Option.some.injEq _ _).mp h).symm
            · left
              simp only [hpos, if_false] at h
              exact ((Option.some.injEq _ _).mp h).symm
      · left
        simp only [hent, if_false] at h
        exact ((Option.some.injEq _ _).mp h).symm

/-- Case analysis for the signal-handling phase of one loop iteration. -/
theorem signalPhase_cases {cfg : EngineConfig} {init : ℚ} {st : SimState}
    {t : ℕ} {price : ℚ} {sigHere : Option TradeSignal} {st' : SimState}
    (h : signalPhase cfg init st t price sigHere = some st') :
    (sigHere = none ∧ st' = st) ∨
    (∃ s, sigHere = some s ∧ st' = { st with lastSignal := some s }) ∨
    (∃ s ps, sigHere = some s ∧ s.signal_type = .buy ∧ st.current_trade = none ∧ 0 < ps ∧
      st' = { st with
              lastSignal := some s
              capital := st.capital - (mkEntryTrade cfg t price ps).commission
              current_trade := some (mkEntryTrade cfg t price ps) }) ∨
    (∃ s tr tr2 net ec, sigHere = some s ∧ s.signal_type = .sell ∧
      st.current_trade = some tr ∧ closeTrade cfg tr price t = some (tr2, net, ec) ∧
      st' = { st with
              lastSignal := some s
              capital := st.capital + net - ec
              trades := st.trades ++ [tr2]
              current_trade := none
              risk := update_daily_pnl st.risk net }) := by
  unfold signalPhase at h
  cases sigHere with
  | none =>
      left
      exact ⟨rfl, ((Option.some.injEq _ _).mp h).symm⟩
  | some s =>
      dsimp only at h
      cases hty : s.signal_type with
      | buy =>
          cases hct : st.current_trade with
          | none =>
              simp only [hty, hct] at h
              rcases buyBranch_cases h with heq | ⟨ps, hpos, heq⟩
              · right; left
                exact ⟨s, rfl, heq⟩
              · right; right; left
                exact ⟨s, ps, rfl, hty, rfl, hpos, heq⟩
          | some tr =>
              simp only [hty, hct] at h
              right; left
              exact ⟨s, rfl, ((Option.some.injEq _ _).mp h).symm⟩
      | sell =>
          cases hct : st.current_trade with
          | none =>
              simp only [hty, hct] at h
              right; left
              exact ⟨s, rfl, ((Option.some.injEq _ _).mp h).symm⟩
          | some tr =>
              simp only [hty, hct] at h
              obtain ⟨tr2, net, ec, hc, heq⟩ := settleClose_cases h
              right; right; right
              exact ⟨s, tr, tr2, net, ec, rfl, hty, rfl, hc, heq⟩
      | hold =>
          simp only [hty] at h
          right; left
          exact ⟨s, rfl, ((Option.some.injEq _ _).mp h).symm⟩

/-- Case analysis for the stop-loss/take-profit phase of one loop
iteration. -/
theorem riskExitPhase_cases {cfg : EngineConfig} {st : SimState} {t : ℕ}
    {price : ℚ} {b : Bool} {st' : SimState}
    (h : riskExitPhase cfg st t price b = some st') :
    (st.current_trade = none ∧ st' = st) ∨
    (∃ tr stt, st.current_trade = some tr ∧
      stt = { st with exit_checks := st.exit_checks ++
        [⟨t, (if b then st.lastSignal.bind TradeSignal.stop_loss else none),
          (if b then st.lastSignal.bind TradeSignal.take_profit else none),
          (should_exit_trade price tr.entry_price tr.side
            (if b then st.lastSignal.bind TradeSignal.stop_loss else none)
            (if b then st.lastSignal.bind TradeSignal.take_profit else none)).1⟩] } ∧
      (((should_exit_trade price tr.entry_price tr.side
            (if b then st.lastSignal.bind TradeSignal.stop_loss else none)
            (if b then st.lastSignal.bind TradeSignal.take_profit else none)).1 = false ∧
         st' = stt) ∨
       ((should_exit_trade price tr.entry_price tr.side
            (if b then st.lastSignal.bind TradeSignal.stop_loss else none)
            (if b then st.lastSignal.bind TradeSignal.take_profit else none)).1 = true ∧
         ∃ tr2 net ec, closeTrade cfg tr price t = some (tr2, net, ec) ∧
           st' = { stt with
                   capital := stt.capital + net - ec
                   trades := stt.trades ++ [tr2]
                   current_trade := none
                   risk := update_daily_pnl stt.risk net }))) := by
  unfold riskExitPhase at h
  cases hct : st.current_trade with
  | none =>
      rw [hct] at h
      exact Or.inl ⟨rfl, ((Option.some.injEq _ _).mp h).symm⟩
  | some tr =>
      rw [hct] at h
      right
      by_cases hf : (should_exit_trade price tr.entry_price tr.side
          (if b then st.lastSignal.bind TradeSignal.stop_loss else none)
          (if b then st.lastSignal.bind TradeSignal.take_profit else none)).1
      · simp only [hf, if_true] at h
        obtain ⟨tr2, net, ec, hc, heq⟩ := settleClose_cases h
        refine ⟨tr, _, rfl, ?_, Or.inr ⟨hf, tr2, net, ec, hc, heq⟩⟩
        rw [hf]
      · rw [Bool.not_eq_true] at hf
        simp only [hf, Bool.false_eq_true, if_false] at h
        refine ⟨tr, _, rfl, ?_, Or.inl ⟨hf, ((Option.some.injEq _ _).mp h).symm⟩⟩
        rw [hf]

/-- Decomposition of one loop iteration into its three phases. -/
theorem simStep_cases {cfg : EngineConfig} {init : ℚ} {sigs : List TradeSignal}
    {st : SimState} {bar : Bar} {st' : SimState}
    (h : simStep cfg init sigs st bar = some st') :
    ∃ st1 st2,
      signalPhase cfg init st bar.t bar.close (signalLookup sigs bar.t) = some st1 ∧
      riskExitPhase cfg st1 bar.t bar.close (signalLookup sigs bar.t).isSome = some st2 ∧
      st' = equityPhase st2 bar.close := by
  simp only [simStep] at h
  cases h1 : signalPhase cfg init st bar.t bar.close (signalLookup sigs bar.t) with
  | none => rw [h1] at h; cases h
  | some st1 =>
      rw [h1] at h
      dsimp only at h
      cases h2 : riskExitPhase cfg st1 bar.t bar.close (signalLookup sigs bar.t).isSome with
      | none => rw [h2] at h; cases h
      | some st2 =>
          rw [h2] at h
          exact ⟨st1, st2, rfl, h2, ((Option.some.injEq _ _).mp h).symm⟩

theorem simStep_sidesLong {cfg : EngineConfig} {init : ℚ} {sigs : List TradeSignal}
    {st : SimState} {bar : Bar} {st' : SimState}
    (h : simStep cfg init sigs st bar = some st') (hP : sidesLongInv st) :
    sidesLongInv st' := by
  obtain ⟨st1, st2, h1, h2, heq⟩ := simStep_cases h
  have hP1 : sidesLongInv st1 := by
    rcases signalPhase_cases h1 with ⟨_, rfl⟩ | ⟨s, hs, rfl⟩ |
        ⟨s, ps, hs, hty, hct, hpos, rfl⟩ | ⟨s, tr, tr2, net, ec, hs, hty, hct, hc, rfl⟩
    · exact hP
    · exact ⟨hP.1, fun tr h' => hP.2 tr h'⟩
    · refine ⟨hP.1, fun tr h' => ?_⟩
      simp only [Option.some.injEq] at h'
      rw [← h']
      rfl
    · refine ⟨?_, fun tr' h' => ?_⟩
      · intro tr' h'
        rcases List.mem_append.mp h' with hm | hm
        · exact hP.1 tr' hm
        · rw [List.mem_singleton.mp hm]
          rw [(closeTrade_some_fields hc).2.1]
          exact hP.2 tr hct
      · cases h'
  have hP2 : sidesLongInv st2 := by
    rcases riskExitPhase_cases h2 with ⟨_, rfl⟩ | ⟨tr, stt, hct, hstt, hdisj⟩
    · exact hP1
    · have hPstt : sidesLongInv stt := by
        rw [hstt]
        exact ⟨hP1.1, fun tr' h' => hP1.2 tr' h'⟩
      rcases hdisj with ⟨_, rfl⟩ | ⟨_, tr2, net, ec, hc, rfl⟩
      · exact hPstt
      · refine ⟨?_, fun tr' h' => ?_⟩
        · intro tr' h'
          rcases List.mem_append.mp h' with hm | hm
          · exact hPstt.1 tr' hm
          · rw [List.mem_singleton.mp hm]
            rw [(closeTrade_some_fields hc).2.1]
            have : stt.current_trade = some tr := by rw [hstt]; exact hct
            exact hPstt.2 tr this
        · cases h'
  rw [heq, equityPhase_eq]
  exact ⟨hP2.1, fun tr' h' => hP2.2 tr' h'⟩

end Backtester
namespace Backtester

theorem foldl_invariant {α β : Type} {f : β → α → β} (P : β → Prop)
    (hstep : ∀ st a, P st → P (f st a)) :
    ∀ (l : List α) (st0 : β), P st0 → P (l.foldl f st0) := by
  intro l
  induction l with
  | nil => intro st0 h; simpa using h
  | cons a tl ih =>
      intro st0 h
      rw [List.foldl_cons]
      exact ih (f st0 a) (hstep st0 a h)

theorem foldlM_except_invariant {α β : Type} {f : β → α → Except String β} (P : β → Prop)
    (hstep : ∀ st a st', f st a = .ok st' → P st → P st') :
    ∀ (l : List α) {st0 st1 : β}, l.foldlM f st0 = .ok st1 → P st0 → P st1 := by
  intro l
  induction l with
  | nil =>
      intro st0 st1 h hP
      simp only [List.foldlM_nil] at h
      cases h
      exact hP
  | cons a tl ih =>
      intro st0 st1 h hP
      rw [List.foldlM_cons] at h
      cases hfa : f st0 a with
      | error e => rw [hfa] at h; cases h
      | ok st' =>
          rw [hfa] at h
          exact ih h (hstep st0 a st' hfa hP)

theorem foldlM_except_error {α β : Type} {f : β → α → Except String β}
    (hstep : ∀ st a e, f st a = .error e → e = divByZeroMsg) :
    ∀ (l : List α) (st0 : β) (e : String), l.foldlM f st0 = .error e → e = divByZeroMsg := by
  intro l
  induction l with
  | nil =>
      intro st0 e h
      simp only [List.foldlM_nil] at h
      cases h
  | cons a tl ih =>
      intro st0 e h
      rw [List.foldlM_cons] at h
      cases hfa : f st0 a with
      | error e2 =>
          rw [hfa] at h
          have he : e2 = e := Except.error.inj h
          exact he ▸ hstep st0 a e2 hfa
      | ok st' =>
          rw [hfa] at h
          exact ih st' e h


theorem noLevels_append {l : List TradeSignal} {s0 : TradeSignal}
    (hP : ∀ s ∈ l, s.stop_loss = none ∧ s.take_profit = none)
    (h0 : s0.stop_loss = none ∧ s0.take_profit = none) :
    ∀ s ∈ l ++ [s0], s.stop_loss = none ∧ s.take_profit = none := by
  intro s hs
  rcases List.mem_append.mp hs with hm | hm
  · exact hP s hm
  · rw [List.mem_singleton.mp hm]
    exact h0

theorem rsiStep_ok_no_levels {p : RSIParams} {acc acc' : List TradeSignal × Option String}
    {pr : RSIRow × RSIRow}
    (h : rsiStep p acc pr = .ok acc')
    (hP : ∀ s ∈ acc.1, s.stop_loss = none ∧ s.take_profit = none) :
    ∀ s ∈ acc'.1, s.stop_loss = none ∧ s.take_profit = none := by
  obtain ⟨prev, cur⟩ := pr
  unfold rsiStep at h
  dsimp only at h
  cases hpre : prev.rsi with
  | none =>
      rw [hpre] at h
      cases hcur : cur.rsi <;> rw [hcur] at h <;>
        exact (Except.ok.inj h) ▸ hP
  | some previous_rsi =>
      rw [hpre] at h
      cases hcur : cur.rsi with
      | none =>
          rw [hcur] at h
          exact (Except.ok.inj h) ▸ hP
      | some current_rsi =>
          rw [hcur] at h
          dsimp only at h
          split_ifs at h
          · cases hd : ediv (p.buy_threshold - current_rsi) p.buy_threshold with
            | error e => rw [hd] at h; cases h
            | ok c =>
                rw [hd] at h
                refine (Except.ok.inj h) ▸ ?_
                exact noLevels_append hP ⟨rfl, rfl⟩
          · cases hd : ediv (current_rsi - p.sell_threshold) (100 - p.sell_threshold) with
            | error e => rw [hd] at h; cases h
            | ok c =>
                rw [hd] at h
                refine (Except.ok.inj h) ▸ ?_
                exact noLevels_append hP ⟨rfl, rfl⟩
          · exact (Except.ok.inj h) ▸ hP


theorem ediv_error {a b : ℚ} {e : String} (h : ediv a b = .error e) : e = divByZeroMsg := by
  unfold ediv at h
  split_ifs at h
  exact (Except.error.inj h).symm

theorem rsiStep_error {p : RSIParams} {acc : List TradeSignal × Option String}
    {pr : RSIRow × RSIRow} {e : String}
    (h : rsiStep p acc pr = .error e) : e = divByZeroMsg := by
  obtain ⟨prev, cur⟩ := pr
  unfold rsiStep at h
  dsimp only at h
  cases hpre : prev.rsi with
  | none =>
      rw [hpre] at h
      cases hcur : cur.rsi <;> rw [hcur] at h <;> cases h
  | some previous_rsi =>
      rw [hpre] at h
      cases hcur : cur.rsi with
      | none => rw [hcur] at h; cases h
      | some current_rsi =>
          rw [hcur] at h
          dsimp only at h
          split_ifs at h
          · cases hd : ediv (p.buy_threshold - current_rsi) p.buy_threshold with
            | error e2 =>
                rw [hd] at h
                exact (Except.error.inj h) ▸ ediv_error hd
            | ok c => rw [hd] at h; cases h
          · cases hd : ediv (current_rsi - p.sell_threshold) (100 - p.sell_threshold) with
            | error e2 =>
                rw [hd] at h
                exact (Except.error.inj h) ▸ ediv_error hd
            | ok c => rw [hd] at h; cases h

theorem macdStep_no_levels {acc : List TradeSignal × Option String}
    {pr : MACDRow × MACDRow}
    (hP : ∀ s ∈ acc.1, s.stop_loss = none ∧ s.take_profit = none) :
    ∀ s ∈ (macdStep acc pr).1, s.stop_loss = none ∧ s.take_profit = none := by
  obtain ⟨prev, cur⟩ := pr
  unfold macdStep
  dsimp only
  cases cur.macd with
  | none => cases cur.macd_signal <;> exact hP
  | some cm =>
      cases cur.macd_signal with
      | none => exact hP
      | some cs =>
          dsimp only
          split_ifs
          · exact noLevels_append hP ⟨rfl, rfl⟩
          · exact noLevels_append hP ⟨rfl, rfl⟩
          · exact hP

theorem bbStep_no_levels {acc : List TradeSignal × Option String}
    {pr : BBRow × BBRow}
    (hP : ∀ s ∈ acc.1, s.stop_loss = none ∧ s.take_profit = none) :
    ∀ s ∈ (bbStep acc pr).1, s.stop_loss = none ∧ s.take_profit = none := by
  obtain ⟨prev, cur⟩ := pr
  unfold bbStep
  dsimp only
  cases cur.bb_lower with
  | none => cases cur.bb_upper <;> exact hP
  | some cl =>
      cases cur.bb_upper with
      | none => exact hP
      | some cu =>
          dsimp only
          split_ifs
          · exact noLevels_append hP ⟨rfl, rfl⟩
          · exact noLevels_append hP ⟨rfl, rfl⟩
          · exact hP

theorem gcStep_no_levels {acc : List TradeSignal × Option String}
    {pr : GCRow × GCRow}
    (hP : ∀ s ∈ acc.1, s.stop_loss = none ∧ s.take_profit = none) :
    ∀ s ∈ (gcStep acc pr).1, s.stop_loss = none ∧ s.take_profit = none := by
  obtain ⟨prev, cur⟩ := pr
  unfold gcStep
  dsimp only
  cases cur.ema_fast with
  | none => cases cur.ema_slow <;> exact hP
  | some cf =>
      cases cur.ema_slow with
      | none => exact hP
      | some cs =>
          dsimp only
          split_ifs
          · exact noLevels_append hP ⟨rfl, rfl⟩
          · exact noLevels_append hP ⟨rfl, rfl⟩
          · exact hP


theorem emaStep_ok_no_levels {p : EMAParams} {acc acc' : List TradeSignal × Option String}
    {ipr : ℕ × (EMARow × EMARow)}
    (h : emaStep p acc ipr = .ok acc')
    (hP : ∀ s ∈ acc.1, s.stop_loss = none ∧ s.take_profit = none) :
    ∀ s ∈ acc'.1, s.stop_loss = none ∧ s.take_profit = none := by
  obtain ⟨j, prev, cur⟩ := ipr
  unfold emaStep at h
  dsimp only at h
  by_cases hj : j + 1 < max p.slow_ema 10
  · rw [if_pos hj] at h
    exact (Except.ok.inj h) ▸ hP
  · rw [if_neg hj] at h
    split at h
    · split_ifs at h <;>
        first
          | exact (Except.ok.inj h) ▸ hP
          | exact (Except.ok.inj h) ▸ noLevels_append hP ⟨rfl, rfl⟩
          | (split at h <;>
              first
                | exact (Except.ok.inj h) ▸ hP
                | (split at h <;>
                    cases h <;>
                    (intro s hs
                     rcases List.mem_append.mp hs with hm | hm
                     exacts [hP s hm,
                       by rw [List.mem_singleton.mp hm]; exact ⟨rfl, rfl⟩])))
    · exact (Except.ok.inj h) ▸ hP


theorem emaStep_error {p : EMAParams} {acc : List TradeSignal × Option String}
    {ipr : ℕ × (EMARow × EMARow)} {e : String}
    (h : emaStep p acc ipr = .error e) : e = divByZeroMsg := by
  obtain ⟨j, prev, cur⟩ := ipr
  unfold emaStep at h
  dsimp only at h
  by_cases hj : j + 1 < max p.slow_ema 10
  · rw [if_pos hj] at h
    cases h
  · rw [if_neg hj] at h
    split at h
    · split_ifs at h <;>
        first
          | cases h
          | (split at h <;>
              first
                | cases h
                | (split at h <;>
                    cases h <;>
                    (rename_i heq2
                     exact ediv_error heq2)))
    · cases h

end Backtester
namespace Backtester

theorem pnlMinusCommissionSum_append (l : List Trade) (tr : Trade) :
    pnlMinusCommissionSum (l ++ [tr]) =
      pnlMinusCommissionSum l + (tr.pnl.getD 0 - tr.commission) := by
  simp [pnlMinusCommissionSum]

/-- With no stop and no take-profit level, the exit trigger never fires. -/
theorem should_exit_trade_no_levels (price ep : ℚ) (side : String) :
    should_exit_trade price ep side none none = (false, "") := by
  unfold should_exit_trade
  split <;> rfl

theorem signalPhase_lastSignal {cfg : EngineConfig} {init : ℚ} {st : SimState}
    {t : ℕ} {price : ℚ} {sigHere : Option TradeSignal} {st1 : SimState}
    (h : signalPhase cfg init st t price sigHere = some st1) :
    st1.lastSignal = sigHere.elim st.lastSignal some := by
  rcases signalPhase_cases h with ⟨hs, rfl⟩ | ⟨s, hs, rfl⟩ |
      ⟨s, ps, hs, _, _, _, rfl⟩ | ⟨s, tr, tr2, net, ec, hs, _, _, _, rfl⟩ <;>
    subst hs <;> rfl

theorem signalPhase_exit_checks {cfg : EngineConfig} {init : ℚ} {st : SimState}
    {t : ℕ} {price : ℚ} {sigHere : Option TradeSignal} {st1 : SimState}
    (h : signalPhase cfg init st t price sigHere = some st1) :
    st1.exit_checks = st.exit_checks := by
  rcases signalPhase_cases h with ⟨_, rfl⟩ | ⟨s, hs, rfl⟩ |
      ⟨s, ps, _, _, _, _, rfl⟩ | ⟨s, tr, tr2, net, ec, _, _, _, _, rfl⟩ <;> rfl

theorem simStep_allClosed {cfg : EngineConfig} {init : ℚ} {sigs : List TradeSignal}
    {st : SimState} {bar : Bar} {st' : SimState}
    (h : simStep cfg init sigs st bar = some st') (hP : allClosedInv st) :
    allClosedInv st' := by
  obtain ⟨st1, st2, h1, h2, heq⟩ := simStep_cases h
  have hP1 : allClosedInv st1 := by
    rcases signalPhase_cases h1 with ⟨_, rfl⟩ | ⟨s, hs, rfl⟩ |
        ⟨s, ps, hs, hty, hct, hpos, rfl⟩ | ⟨s, tr, tr2, net, ec, hs, hty, hct, hc, rfl⟩
    · exact hP
    · exact fun tr h' => hP tr h'
    · exact fun tr h' => hP tr h'
    · intro tr' h'
      rcases List.mem_append.mp h' with hm | hm
      · exact hP tr' hm
      · rw [List.mem_singleton.mp hm]
        obtain ⟨ho, _, hp, _⟩ := closeTrade_some_fields hc
        exact ⟨ho, by rw [hp]; rfl⟩
  have hP2 : allClosedInv st2 := by
    rcases riskExitPhase_cases h2 with ⟨_, rfl⟩ | ⟨tr, stt, hct, hstt, hdisj⟩
    · exact hP1
    · have hPstt : allClosedInv stt := by
        rw [hstt]
        exact fun tr' h' => hP1 tr' h'
      rcases hdisj with ⟨_, rfl⟩ | ⟨_, tr2, net, ec, hc, rfl⟩
      · exact hPstt
      · intro tr' h'
        rcases List.mem_append.mp h' with hm | hm
        · exact hPstt tr' hm
        · rw [List.mem_singleton.mp hm]
          obtain ⟨ho, _, hp, _⟩ := closeTrade_some_fields hc
          exact ⟨ho, by rw [hp]; rfl⟩
  rw [heq, equityPhase_eq]
  exact fun tr' h' => hP2 tr' h'

theorem simStep_exitChecksArgs {cfg : EngineConfig} {init : ℚ}
    {sigs : List TradeSignal} {st : SimState} {bar : Bar} {st' : SimState}
    (h : simStep cfg init sigs st bar = some st') (hP : exitChecksArgsInv sigs st) :
    exitChecksArgsInv sigs st' := by
  obtain ⟨st1, st2, h1, h2, heq⟩ := simStep_cases h
  have hchk1 : st1.exit_checks = st.exit_checks := signalPhase_exit_checks h1
  have hlast : st1.lastSignal = (signalLookup sigs bar.t).elim st.lastSignal some :=
    signalPhase_lastSignal h1
  have hP1 : exitChecksArgsInv sigs st1 := by
    intro c hc
    exact hP c (hchk1 ▸ hc)
  have hnew : (if (signalLookup sigs bar.t).isSome
        then st1.lastSignal.bind TradeSignal.stop_loss else none) =
        (signalLookup sigs bar.t).bind TradeSignal.stop_loss ∧
      (if (signalLookup sigs bar.t).isSome
        then st1.lastSignal.bind TradeSignal.take_profit else none) =
        (signalLookup sigs bar.t).bind TradeSignal.take_profit := by
    cases hsl : signalLookup sigs bar.t with
    | none => simp
    | some s =>
        rw [hsl] at hlast
        simp [hlast]
  have hP2 : exitChecksArgsInv sigs st2 := by
    rcases riskExitPhase_cases h2 with ⟨_, rfl⟩ | ⟨tr, stt, hct, hstt, hdisj⟩
    · exact hP1
    · have hPstt : exitChecksArgsInv sigs stt := by
        rw [hstt]
        intro c hc
        rcases List.mem_append.mp hc with hm | hm
        · exact hP1 c hm
        · rw [List.mem_singleton.mp hm]
          exact ⟨hnew.1, hnew.2⟩
      rcases hdisj with ⟨_, rfl⟩ | ⟨_, tr2, net, ec, hc, rfl⟩
      · exact hPstt
      · intro c hc
        exact hPstt c hc
  rw [heq, equityPhase_eq]
  intro c hc
  exact hP2 c hc

theorem simStep_neverFired {cfg : EngineConfig} {init : ℚ}
    {sigs : List TradeSignal} {st : SimState} {bar : Bar} {st' : SimState}
    (hnone : ∀ s ∈ sigs, s.stop_loss = none ∧ s.take_profit = none)
    (h : simStep cfg init sigs st bar = some st') (hP : neverFiredInv sigs st) :
    neverFiredInv sigs st' := by
  obtain ⟨st1, st2, h1, h2, heq⟩ := simStep_cases h
  have hchk1 : st1.exit_checks = st.exit_checks := signalPhase_exit_checks h1
  have hlast : st1.lastSignal = (signalLookup sigs bar.t).elim st.lastSignal some :=
    signalPhase_lastSignal h1
  have hP1 : neverFiredInv sigs st1 := by
    refine ⟨?_, ?_⟩
    · intro s hs
      rw [hlast] at hs
      cases hsl : signalLookup sigs bar.t with
      | none =>
          rw [hsl] at hs
          exact hP.1 s hs
      | some s2 =>
          rw [hsl] at hs
          simp only [Option.elim, Option.some.injEq] at hs
          rw [← hs]
          exact signalLookup_mem hsl
    · intro c hc
      exact hP.2 c (hchk1 ▸ hc)
  have hargs : (if (signalLookup sigs bar.t).isSome
        then st1.lastSignal.bind TradeSignal.stop_loss else none) = none ∧
      (if (signalLookup sigs bar.t).isSome
        then st1.lastSignal.bind TradeSignal.take_profit else none) = none := by
    cases hsl : signalLookup sigs bar.t with
    | none => simp
    | some s =>
        rw [hsl] at hlast
        obtain ⟨hsl1, hsl2⟩ := hnone s (signalLookup_mem hsl)
        simp [hlast, hsl1, hsl2]
  have hP2 : neverFiredInv sigs st2 := by
    rcases riskExitPhase_cases h2 with ⟨_, rfl⟩ | ⟨tr, stt, hct, hstt, hdisj⟩
    · exact hP1
    · have hPstt : neverFiredInv sigs stt := by
        rw [hstt]
        refine ⟨fun s hs => hP1.1 s hs, ?_⟩
        intro c hc
        rcases List.mem_append.mp hc with hm | hm
        · exact hP1.2 c hm
        · rw [List.mem_singleton.mp hm]
          rw [hargs.1, hargs.2, should_exit_trade_no_levels]
      rcases hdisj with ⟨_, rfl⟩ | ⟨_, tr2, net, ec, hc, rfl⟩
      · exact hPstt
      · exact ⟨fun s hs => hPstt.1 s hs, fun c hc => hPstt.2 c hc⟩
  rw [heq, equityPhase_eq]
  exact ⟨fun s hs => hP2.1 s hs, fun c hc => hP2.2 c hc⟩

theorem simStep_capital {cfg : EngineConfig} {init0 init : ℚ}
    {sigs : List TradeSignal} {st : SimState} {bar : Bar} {st' : SimState}
    (h : simStep cfg init0 sigs st bar = some st') (hP : capitalInv init st) :
    capitalInv init st' := by
  obtain ⟨st1, st2, h1, h2, heq⟩ := simStep_cases h
  have hP1 : capitalInv init st1 := by
    rcases signalPhase_cases h1 with ⟨_, rfl⟩ | ⟨s, hs, rfl⟩ |
        ⟨s, ps, hs, hty, hct, hpos, rfl⟩ | ⟨s, tr, tr2, net, ec, hs, hty, hct, hc, rfl⟩
    · exact hP
    · exact hP
    · unfold capitalInv at hP ⊢
      rw [hct] at hP
      simp only at hP ⊢
      rw [hP]
      ring
    · unfold capitalInv at hP ⊢
      rw [hct] at hP
      obtain ⟨_, _, hpnl, _, hcomm, _, _⟩ := closeTrade_some_fields hc
      simp only [pnlMinusCommissionSum_append] at *
      rw [hpnl] at *
      simp only [Option.getD_some]
      rw [hcomm, hP]
      ring
  have hP2 : capitalInv init st2 := by
    rcases riskExitPhase_cases h2 with ⟨_, rfl⟩ | ⟨tr, stt, hct, hstt, hdisj⟩
    · exact hP1
    · have hPstt : capitalInv init stt := by
        rw [hstt]
        exact hP1
      rcases hdisj with ⟨_, rfl⟩ | ⟨_, tr2, net, ec, hc, rfl⟩
      · exact hPstt
      · unfold capitalInv at hPstt ⊢
        have hcts : stt.current_trade = some tr := by
          rw [hstt]
          exact hct
        rw [hcts] at hPstt
        obtain ⟨_, _, hpnl, _, hcomm, _, _⟩ := closeTrade_some_fields hc
        simp only [pnlMinusCommissionSum_append]
        rw [hpnl]
        simp only [Option.getD_some]
        rw [hcomm, hPstt]
        ring
  rw [heq, equityPhase_eq]
  exact hP2

theorem simStep_equity_last {cfg : EngineConfig} {init0 : ℚ}
    {sigs : List TradeSignal} {st : SimState} {bar : Bar} {st' : SimState}
    (h : simStep cfg init0 sigs st bar = some st') :
    st'.equity_curve.getLast? = some (st'.capital + unrealizedPnl st' bar.close) := by
  obtain ⟨st1, st2, h1, h2, heq⟩ := simStep_cases h
  rw [heq, equityPhase_eq]
  simp [unrealizedPnl]

theorem simulate_trading_cases {cfg : EngineConfig} {rp : RiskParameters}
    {data : List Bar} {sigs : List TradeSignal} {init : ℚ}
    {st : SimState} {res : BacktestResults}
    (h : simulate_trading cfg rp data sigs init = some (st, res)) :
    data.foldlM (simStep cfg init sigs) (initSimState rp init) = some st ∧
    ∃ finalTrades, forceCloseTrades cfg data st = some finalTrades ∧
      res = calculate_all_metrics init st.equity_curve finalTrades := by
  unfold simulate_trading at h
  cases hf : data.foldlM (simStep cfg init sigs) (initSimState rp init) with
  | none => rw [hf] at h; cases h
  | some stL =>
      rw [hf] at h
      dsimp only at h
      cases hfc : forceCloseTrades cfg data stL with
      | none => rw [hfc] at h; cases h
      | some ft =>
          rw [hfc] at h
          simp only [Option.some.injEq, Prod.mk.injEq] at h
          obtain ⟨hst, hres⟩ := h
          subst hst
          exact ⟨rfl, ft, hfc, hres.symm⟩

theorem forceCloseTrades_cases {cfg : EngineConfig} {data : List Bar}
    {st : SimState} {ft : List Trade}
    (h : forceCloseTrades cfg data st = some ft) :
    (st.current_trade = none ∧ ft = st.trades) ∨
    (∃ tr lastBar tr2 net ec, st.current_trade = some tr ∧
      data.getLast? = some lastBar ∧
      closeTrade cfg tr lastBar.close lastBar.t = some (tr2, net, ec) ∧
      ft = st.trades ++ [tr2]) := by
  unfold forceCloseTrades at h
  cases hct : st.current_trade with
  | none =>
      rw [hct] at h
      exact Or.inl ⟨rfl, ((Option.some.injEq _ _).mp h).symm⟩
  | some tr =>
      rw [hct] at h
      dsimp only at h
      cases hlb : data.getLast? with
      | none => rw [hlb] at h; cases h
      | some lastBar =>
          rw [hlb] at h
          dsimp only at h
          cases hc : closeTrade cfg tr lastBar.close lastBar.t with
          | none => rw [hc] at h; cases h
          | some v =>
              obtain ⟨tr2, net, ec⟩ := v
              rw [hc] at h
              exact Or.inr ⟨tr, lastBar, tr2, net, ec, rfl, rfl, hc,
                ((Option.some.injEq _ _).mp h).symm⟩

theorem run_equity_last {cfg : EngineConfig} {init : ℚ}
    {sigs : List TradeSignal} {data : List Bar} {st0 st : SimState}
    (hne : data ≠ [])
    (hfold : data.foldlM (simStep cfg init sigs) st0 = some st) :
    ∃ lastBar, data.getLast? = some lastBar ∧
      st.equity_curve.getLast? = some (st.capital + unrealizedPnl st lastBar.close) := by
  rcases List.eq_nil_or_concat data with rfl | ⟨l, b, rfl⟩
  · exact absurd rfl hne
  · have hgl : (l.concat b).getLast? = some b := by simp
    simp only [List.concat_eq_append] at hfold hgl ⊢
    rw [List.foldlM_append] at hfold
    cases hmid : l.foldlM (simStep cfg init sigs) st0 with
    | none =>
        rw [hmid] at hfold
        cases hfold
    | some stMid =>
        rw [hmid] at hfold
        simp only [Option.bind_eq_bind, Option.some_bind, List.foldlM_cons,
          List.foldlM_nil] at hfold
        cases hstep : simStep cfg init sigs stMid b with
        | none => rw [hstep] at hfold; cases hfold
        | some stFin =>
            rw [hstep] at hfold
            simp only [Option.pure_def, Option.bind_eq_bind, Option.some_bind,
              Option.some.injEq] at hfold
            subst hfold
            exact ⟨b, by simp, simStep_equity_last hstep⟩

theorem calculate_all_metrics_nonempty (i : ℚ) (eq : List ℚ) (tr : List Trade)
    (h : eq ≠ []) :
    (calculate_all_metrics i eq tr).final_capital = eq.getLastD 0 ∧
    (calculate_all_metrics i eq tr).trades = tr ∧
    (calculate_all_metrics i eq tr).total_trades = (calculate_trade_metrics tr).total_trades ∧
    (calculate_all_metrics i eq tr).winning_trades = (calculate_trade_metrics tr).winning_trades ∧
    (calculate_all_metrics i eq tr).win_rate = (calculate_trade_metrics tr).win_rate := by
  cases eq with
  | nil => exact absurd rfl h
  | cons e es => simp [calculate_all_metrics]

theorem trade_metrics_win_rate (tr : List Trade)
    (hcl : ∀ t ∈ tr, t.is_open = false ∧ t.pnl.isSome = true) :
    (calculate_trade_metrics tr).win_rate * ((calculate_trade_metrics tr).total_trades : ℚ) =
      ((calculate_trade_metrics tr).winning_trades : ℚ) ∧
    (((calculate_trade_metrics tr).total_trades : ℚ) ≠ 0 →
      (calculate_trade_metrics tr).win_rate =
        ((calculate_trade_metrics tr).winning_trades : ℚ) /
          ((calculate_trade_metrics tr).total_trades : ℚ)) := by
  unfold calculate_trade_metrics
  by_cases h0 : tr = []
  · simp [h0]
  · have hfilter : tr.filter (fun t => !t.is_open && t.pnl.isSome) = tr :=
      List.filter_eq_self.mpr (fun t ht => by
        obtain ⟨h1, h2⟩ := hcl t ht
        simp [h1, h2])
    simp only [h0, if_false, hfilter]
    have hlen : 0 < tr.length := List.length_pos.mpr h0
    simp only [hlen, if_true]
    have hcast : (tr.length : ℚ) ≠ 0 := by
      exact_mod_cast Nat.pos_iff_ne_zero.mp hlen
    constructor
    · exact div_mul_cancel₀ _ hcast
    · intro
      trivial

end Backtester

namespace Backtester

theorem calculate_all_metrics_trades_mem {i : ℚ} {eq : List ℚ} {tr : List Trade} :
    ∀ x ∈ (calculate_all_metrics i eq tr).trades, x ∈ tr := by
  cases eq <;> simp [calculate_all_metrics]

/-- C3: a long trade opened by the engine at pre-slippage price `E` and
closed at pre-slippage price `X` records
`pnl = Q*(X*(1-S) - E*(1+S)) - Q*E*(1+S)*C - Q*X*(1-S)*C` and
`pnl_pct = pnl / (Q*E*(1+S))`. -/
theorem closed_trade_pnl_spec (cfg : EngineConfig) (E X Q : ℚ) (t t' : ℕ)
    (hden : Q * (E * (1 + cfg.slippage)) ≠ 0) :
    ∃ tr net ec,
      closeTrade cfg (mkEntryTrade cfg t E Q) X t' = some (tr, net, ec) ∧
      tr.pnl = some (Q * (X * (1 - cfg.slippage) - E * (1 + cfg.slippage))
        - Q * E * (1 + cfg.slippage) * cfg.commission
        - Q * X * (1 - cfg.slippage) * cfg.commission) ∧
      tr.pnl_pct = some ((Q * (X * (1 - cfg.slippage) - E * (1 + cfg.slippage))
        - Q * E * (1 + cfg.slippage) * cfg.commission
        - Q * X * (1 - cfg.slippage) * cfg.commission)
        / (Q * E * (1 + cfg.slippage))) := by
  have hq : (mkEntryTrade cfg t E Q).quantity * (mkEntryTrade cfg t E Q).entry_price ≠ 0 := by
    simpa [mkEntryTrade] using hden
  refine ⟨_, _, _, closeTrade_eq cfg _ X t' hq, ?_, ?_⟩
  · simp only [mkEntryTrade]
    ring_nf
  · simp only [mkEntryTrade]
    have hd : Q * (E * (1 + cfg.slippage)) = Q * E * (1 + cfg.slippage) := by ring
    rw [hd]
    congr 1
    ring

/-- Witness for C3 at a concrete trade. -/
theorem closed_trade_pnl_spec_witness :
    ∃ tr net ec,
      closeTrade cexCfg (mkEntryTrade cexCfg 0 100 10) 110 1 = some (tr, net, ec) ∧
      tr.pnl = some (10 * (110 * (1 - cexCfg.slippage) - 100 * (1 + cexCfg.slippage))
        - 10 * 100 * (1 + cexCfg.slippage) * cexCfg.commission
        - 10 * 110 * (1 - cexCfg.slippage) * cexCfg.commission) ∧
      tr.pnl_pct = some ((10 * (110 * (1 - cexCfg.slippage) - 100 * (1 + cexCfg.slippage))
        - 10 * 100 * (1 + cexCfg.slippage) * cexCfg.commission
        - 10 * 110 * (1 - cexCfg.slippage) * cexCfg.commission)
        / (10 * 100 * (1 + cexCfg.slippage))) :=
  closed_trade_pnl_spec cexCfg 100 110 10 0 1 (by with_unfolding_all decide)

/-- C6: the position size never exceeds `capital * max_position_size / price`
and equals that bound when no stop-loss price is supplied. -/
theorem position_size_bound_spec (rp : RiskParameters) (capital price : ℚ)
    (stop : Option ℚ) (hcap : 0 ≤ capital) (hprice : 0 < price)
    (hmps : 0 ≤ rp.max_position_size)
    (hstop : ∀ slp, stop = some slp → slp ≠ price) :
    ∃ v, calculate_position_size rp capital price stop = some v ∧
      v ≤ capital * rp.max_position_size / price ∧
      (stop = none → v = capital * rp.max_position_size / price) := by
  have hb : (0:ℚ) ≤ capital * rp.max_position_size / price :=
    div_nonneg (mul_nonneg hcap hmps) hprice.le
  cases stop with
  | none =>
      refine ⟨_, calculate_position_size_none_eq rp capital price hprice.ne', ?_, ?_⟩
      · simp [max_eq_right hb]
      · intro
        simp [max_eq_right hb]
  | some slp =>
      have hne : |price - slp| ≠ 0 :=
        abs_ne_zero.mpr (sub_ne_zero.mpr (Ne.symm (hstop slp rfl)))
      refine ⟨_, calculate_position_size_some_eq rp capital price slp hprice.ne' hne, ?_, ?_⟩
      · exact max_le hb (le_trans (min_le_left _ _) le_rfl)
      · intro h
        cases h

/-- Witness for C6 at a concrete sizing call. -/
theorem position_size_bound_spec_witness :
    ∃ v, calculate_position_size defaultRiskParameters 1000 10 (some 9) = some v ∧
      v ≤ 1000 * defaultRiskParameters.max_position_size / 10 ∧
      ((some (9:ℚ) = none) → v = 1000 * defaultRiskParameters.max_position_size / 10) :=
  position_size_bound_spec defaultRiskParameters 1000 10 (some 9)
    (by with_unfolding_all decide) (by with_unfolding_all decide)
    (by with_unfolding_all decide)
    (fun slp h => by
      rw [← Option.some.inj h]
      with_unfolding_all decide)

/-- C10: a stop-loss price equal to the entry price makes the sizing
division fail (`ZeroDivisionError`), while any distinct stop-loss price
yields a size. -/
theorem position_size_zero_risk_spec (rp : RiskParameters) (capital price : ℚ)
    (hprice : price ≠ 0) :
    calculate_position_size rp capital price (some price) = none ∧
    ∀ slp, slp ≠ price →
      ∃ v, calculate_position_size rp capital price (some slp) = some v := by
  constructor
  · simp [calculate_position_size, qdiv?_eq_some hprice, qdiv?]
  · intro slp h
    have hne : |price - slp| ≠ 0 := abs_ne_zero.mpr (sub_ne_zero.mpr (Ne.symm h))
    exact ⟨_, calculate_position_size_some_eq rp capital price slp hprice hne⟩

/-- Witness for C10 at a concrete price. -/
theorem position_size_zero_risk_spec_witness :
    calculate_position_size defaultRiskParameters 500 10 (some 10) = none ∧
    ∃ v, calculate_position_size defaultRiskParameters 500 10 (some 9) = some v :=
  ⟨(position_size_zero_risk_spec defaultRiskParameters 500 10 (by with_unfolding_all decide)).1,
   (position_size_zero_risk_spec defaultRiskParameters 500 10
     (by with_unfolding_all decide)).2 9 (by with_unfolding_all decide)⟩

/-- C2: every stop-loss/take-profit evaluation in the simulation loop
received exactly the levels of the signal whose timestamp equals the current
bar's timestamp, and `None` levels when no signal exists at that
timestamp. -/
theorem exit_trigger_args_spec {cfg : EngineConfig} {rp : RiskParameters}
    {data : List Bar} {sigs : List TradeSignal} {init : ℚ}
    {st : SimState} {res : BacktestResults}
    (hrun : simulate_trading cfg rp data sigs init = some (st, res)) :
    ∀ c ∈ st.exit_checks,
      c.stop_arg = (signalLookup sigs c.t).bind TradeSignal.stop_loss ∧
      c.take_arg = (signalLookup sigs c.t).bind TradeSignal.take_profit := by
  obtain ⟨hfold, _⟩ := simulate_trading_cases hrun
  exact foldlM_option_invariant (exitChecksArgsInv sigs)
    (fun _ _ _ hs hP => simStep_exitChecksArgs hs hP) data hfold
    (fun c hc => absurd hc (List.not_mem_nil c))

/-- Witness for C2 on a concrete run. -/
theorem exit_trigger_args_spec_witness :
    ∃ st res,
      simulate_trading cexCfg defaultRiskParameters cexData cexSigs 10000 = some (st, res) ∧
      ∀ c ∈ st.exit_checks,
        c.stop_arg = (signalLookup cexSigs c.t).bind TradeSignal.stop_loss ∧
        c.take_arg = (signalLookup cexSigs c.t).bind TradeSignal.take_profit := by
  obtain ⟨st, res, h⟩ : ∃ st res,
      simulate_trading cexCfg defaultRiskParameters cexData cexSigs 10000 = some (st, res) :=
    ⟨_, _, by with_unfolding_all rfl⟩
  exact ⟨st, res, h, exit_trigger_args_spec h⟩

/-- C9: every trade the simulation records is a long; the engine never opens
short positions even when a strategy emits a short-entry SELL signal with no
position open. -/
theorem trades_long_only_spec {cfg : EngineConfig} {rp : RiskParameters}
    {data : List Bar} {sigs : List TradeSignal} {init : ℚ}
    {st : SimState} {res : BacktestResults}
    (hrun : simulate_trading cfg rp data sigs init = some (st, res)) :
    ∀ tr ∈ res.trades, tr.side = "long" := by
  obtain ⟨hfold, ft, hforce, hres⟩ := simulate_trading_cases hrun
  have hinv : sidesLongInv st :=
    foldlM_option_invariant sidesLongInv
      (fun _ _ _ hs hP => simStep_sidesLong hs hP) data hfold
      ⟨fun tr h => absurd h (List.not_mem_nil tr), fun tr h => by cases h⟩
  have hftlong : ∀ tr ∈ ft, tr.side = "long" := by
    rcases forceCloseTrades_cases hforce with ⟨_, rfl⟩ |
        ⟨tr, lastBar, tr2, net, ec, hct, hlb, hc, rfl⟩
    · exact hinv.1
    · intro tr' h'
      rcases List.mem_append.mp h' with hm | hm
      · exact hinv.1 tr' hm
      · rw [List.mem_singleton.mp hm, (closeTrade_some_fields hc).2.1]
        exact hinv.2 tr hct
  intro tr h
  rw [hres] at h
  exact hftlong tr (calculate_all_metrics_trades_mem tr h)

/-- Witness for C9 on a concrete run. -/
theorem trades_long_only_spec_witness :
    ∃ st res,
      simulate_trading cexCfg defaultRiskParameters cexData cexSigs 10000 = some (st, res) ∧
      ∀ tr ∈ res.trades, tr.side = "long" := by
  obtain ⟨st, res, h⟩ : ∃ st res,
      simulate_trading cexCfg defaultRiskParameters cexData cexSigs 10000 = some (st, res) :=
    ⟨_, _, by with_unfolding_all rfl⟩
  exact ⟨st, res, h, trades_long_only_spec h⟩

end Backtester
namespace Backtester

/-- C4: every trade in the returned list is closed, and a position still
open at the last bar is force-closed with the last bar's timestamp as its
exit time. -/
theorem force_close_spec {cfg : EngineConfig} {rp : RiskParameters}
    {data : List Bar} {sigs : List TradeSignal} {init : ℚ}
    {st : SimState} {res : BacktestResults}
    (hrun : simulate_trading cfg rp data sigs init = some (st, res)) :
    (∀ tr ∈ res.trades, tr.is_open = false) ∧
    (∀ trOpen lastBar, st.current_trade = some trOpen → data.getLast? = some lastBar →
      ∃ tr2, res.trades.getLast? = some tr2 ∧ tr2.exit_time = some lastBar.t ∧
        tr2.is_open = false) := by
  obtain ⟨hfold, ft, hforce, hres⟩ := simulate_trading_cases hrun
  have hclosed : allClosedInv st :=
    foldlM_option_invariant allClosedInv
      (fun _ _ _ hs hP => simStep_allClosed hs hP) data hfold
      (fun tr h => absurd h (List.not_mem_nil tr))
  have hftclosed : ∀ tr ∈ ft, tr.is_open = false := by
    rcases forceCloseTrades_cases hforce with ⟨_, rfl⟩ |
        ⟨tr, lastBar, tr2, net, ec, hct, hlb, hc, rfl⟩
    · exact fun tr h => (hclosed tr h).1
    · intro tr' h'
      rcases List.mem_append.mp h' with hm | hm
      · exact (hclosed tr' hm).1
      · rw [List.mem_singleton.mp hm]
        exact (closeTrade_some_fields hc).1
  constructor
  · intro tr h
    rw [hres] at h
    exact hftclosed tr (calculate_all_metrics_trades_mem tr h)
  · intro trOpen lastBar hct hlb
    rcases forceCloseTrades_cases hforce with ⟨hnone, _⟩ |
        ⟨tr, lb2, tr2, net, ec, hct2, hlb2, hc, hfteq⟩
    · rw [hct] at hnone
      cases hnone
    · have hdne : data ≠ [] := by
        intro h0
        rw [h0] at hlb
        cases hlb
      obtain ⟨lastBar', hlb', hlast⟩ := run_equity_last hdne hfold
      have heqne : st.equity_curve ≠ [] := by
        intro h0
        rw [h0] at hlast
        cases hlast
      have htr := (calculate_all_metrics_nonempty init st.equity_curve ft heqne).2.1
      have hlbeq : lb2 = lastBar := Option.some.inj (hlb2 ▸ hlb ▸ rfl)
      refine ⟨tr2, ?_, ?_, ?_⟩
      · rw [hres, htr, hfteq]
        simp
      · rw [← hlbeq]
        exact (closeTrade_some_fields hc).2.2.2.1
      · exact (closeTrade_some_fields hc).1

/-- Witness for C4 on a concrete run ending with a forced close (a buy
signal with no later sell). -/
theorem force_close_spec_witness :
    ∃ st res,
      simulate_trading cexCfg defaultRiskParameters cexData
        [{ timestamp := 0, signal_type := .buy, price := 100 }] 10000 = some (st, res) ∧
      ∀ tr ∈ res.trades, tr.is_open = false := by
  obtain ⟨st, res, h⟩ : ∃ st res,
      simulate_trading cexCfg defaultRiskParameters cexData
        [{ timestamp := 0, signal_type := .buy, price := 100 }] 10000 = some (st, res) :=
    ⟨_, _, by with_unfolding_all rfl⟩
  exact ⟨st, res, h, (force_close_spec h).1⟩

/-- C1 counterexample: on a concrete backtest (default commission and
slippage, default risk parameters, one buy-sell round trip), the returned
`final_capital` differs from `initial_capital` plus the sum of the closed
trades' PnL: the loop deducts the entry commission at the open and then
credits `net_pnl - exit_commission`, although `net_pnl` is already net of
both commissions. -/
theorem final_capital_sum_counterexample :
    (simulate_trading cexCfg defaultRiskParameters cexData cexSigs 10000).map
        (fun p => p.2.final_capital) ≠
      (simulate_trading cexCfg defaultRiskParameters cexData cexSigs 10000).map
        (fun p => p.2.initial_capital + closedPnlSum p.2.trades) := by
  with_unfolding_all decide

/-- C1 as amended: when the simulation ends flat, `final_capital` equals
`initial_capital` plus the sum over closed trades of `pnl` minus the
trade's accumulated commission, and `win_rate` is exactly
`winning_trades / total_trades`. -/
theorem final_capital_formula {cfg : EngineConfig} {rp : RiskParameters}
    {data : List Bar} {sigs : List TradeSignal} {init : ℚ}
    {st : SimState} {res : BacktestResults}
    (hrun : simulate_trading cfg rp data sigs init = some (st, res))
    (hflat : st.current_trade = none) (hne : data ≠ []) :
    res.final_capital = init + pnlMinusCommissionSum res.trades ∧
    res.win_rate * (res.total_trades : ℚ) = (res.winning_trades : ℚ) ∧
    ((res.total_trades : ℚ) ≠ 0 →
      res.win_rate = (res.winning_trades : ℚ) / (res.total_trades : ℚ)) := by
  obtain ⟨hfold, ft, hforce, hres⟩ := simulate_trading_cases hrun
  have hft : ft = st.trades := by
    rcases forceCloseTrades_cases hforce with ⟨_, heq⟩ | ⟨tr, _, _, _, _, hct, _⟩
    · exact heq
    · rw [hflat] at hct
      cases hct
  subst hft
  obtain ⟨lastBar, hlb, hlast⟩ := run_equity_last hne hfold
  have heqne : st.equity_curve ≠ [] := by
    intro h0
    rw [h0] at hlast
    cases hlast
  have hcap : capitalInv init st :=
    foldlM_option_invariant (capitalInv init)
      (fun _ _ _ hs hP => simStep_capital hs hP) data hfold
      (by simp [capitalInv, initSimState, pnlMinusCommissionSum])
  have hclosed : allClosedInv st :=
    foldlM_option_invariant allClosedInv
      (fun _ _ _ hs hP => simStep_allClosed hs hP) data hfold
      (fun tr h => absurd h (List.not_mem_nil tr))
  obtain ⟨hfc, htr, htt, hwt, hwr⟩ :=
    calculate_all_metrics_nonempty init st.equity_curve st.trades heqne
  rw [hres]
  obtain ⟨hwr1, hwr2⟩ := trade_metrics_win_rate st.trades hclosed
  refine ⟨?_, ?_, ?_⟩
  · rw [hfc, htr]
    have hl : st.equity_curve.getLastD 0 = st.capital + unrealizedPnl st lastBar.close := by
      rw [List.getLastD_eq_getLast?, hlast]
      rfl
    rw [hl]
    unfold capitalInv at hcap
    rw [hflat] at hcap
    simp only [unrealizedPnl, hflat] at *
    rw [hcap]
    ring
  · rw [htt, hwt, hwr]
    exact hwr1
  · rw [htt, hwt, hwr]
    exact hwr2

/-- Witness for the amended C1 on a concrete flat-ending run. -/
theorem final_capital_formula_witness :
    ∃ st res,
      simulate_trading cexCfg defaultRiskParameters cexData cexSigs 10000 = some (st, res) ∧
      res.final_capital = 10000 + pnlMinusCommissionSum res.trades := by
  obtain ⟨st, res, h⟩ : ∃ st res,
      simulate_trading cexCfg defaultRiskParameters cexData cexSigs 10000 = some (st, res) :=
    ⟨_, _, by with_unfolding_all rfl⟩
  refine ⟨st, res, h, (final_capital_formula h ?_ ?_).1⟩
  · have hs : st = ((simulate_trading cexCfg defaultRiskParameters cexData cexSigs
        10000).map Prod.fst).getD (initSimState defaultRiskParameters 10000) := by
      rw [h]
      rfl
    rw [hs]
    with_unfolding_all rfl
  · intro h0
    cases h0

end Backtester
namespace Backtester

/-- C5 counterexample: with the `volume` column missing, the RSI strategy
fails with the fixed message `invalidDataMsg`, and that message does not
contain the name of any required column — in particular it does not name
the missing column `volume`. -/
theorem invalid_input_message_counterexample :
    rsi_generate_signals {} ["open", "high", "low", "close"] [] =
      .error invalidDataMsg ∧
    ∀ c ∈ requiredColumns, ¬ List.IsInfix c.toList invalidDataMsg.toList := by
  exact ⟨rfl, by decide⟩

/-- C5 as amended: whenever a required OHLCV column is missing, every one of
the five strategies fails with the one fixed message `invalidDataMsg`
("Datos inválidos: faltan columnas OHLCV"), and when all five required
columns are present no strategy ever fails with that message (the only
other failure is a `ZeroDivisionError`). -/
theorem invalid_input_spec (p : RSIParams) (q : EMAParams) (columns : List String)
    (rrows : List RSIRow) (mrows : List MACDRow) (brows : List BBRow)
    (erows : List EMARow) (grows : List GCRow) :
    (validate_data columns = false →
      rsi_generate_signals p columns rrows = .error invalidDataMsg ∧
      macd_generate_signals columns mrows = .error invalidDataMsg ∧
      bb_generate_signals columns brows = .error invalidDataMsg ∧
      ema_generate_signals q columns erows = .error invalidDataMsg ∧
      gc_generate_signals columns grows = .error invalidDataMsg) ∧
    (validate_data columns = true →
      rsi_generate_signals p columns rrows ≠ .error invalidDataMsg ∧
      macd_generate_signals columns mrows ≠ .error invalidDataMsg ∧
      bb_generate_signals columns brows ≠ .error invalidDataMsg ∧
      ema_generate_signals q columns erows ≠ .error invalidDataMsg ∧
      gc_generate_signals columns grows ≠ .error invalidDataMsg) := by
  constructor
  · intro hval
    refine ⟨?_, ?_, ?_, ?_, ?_⟩
    · unfold rsi_generate_signals
      rw [hval]
      rfl
    · unfold macd_generate_signals
      rw [hval]
      rfl
    · unfold bb_generate_signals
      rw [hval]
      rfl
    · unfold ema_generate_signals
      rw [hval]
      rfl
    · unfold gc_generate_signals
      rw [hval]
      rfl
  · intro hval
    refine ⟨?_, ?_, ?_, ?_, ?_⟩
    · unfold rsi_generate_signals
      rw [hval]
      cases hf : (adjPairs rrows).foldlM (rsiStep p) ([], none) with
      | error e =>
          intro hcontra
          have he : e = divByZeroMsg :=
            foldlM_except_error (fun st a e2 he2 => rsiStep_error he2) _ _ e hf
          have he2 : e = invalidDataMsg := Except.error.inj hcontra
          rw [he] at he2
          exact absurd he2 (by decide)
      | ok acc => exact fun hcontra => Except.noConfusion hcontra
    · unfold macd_generate_signals
      rw [hval]
      exact fun hcontra => Except.noConfusion hcontra
    · unfold bb_generate_signals
      rw [hval]
      exact fun hcontra => Except.noConfusion hcontra
    · unfold ema_generate_signals
      rw [hval]
      cases hf : (adjPairs erows).enum.foldlM (emaStep q) ([], none) with
      | error e =>
          intro hcontra
          have he : e = divByZeroMsg :=
            foldlM_except_error (fun st a e2 he2 => emaStep_error he2) _ _ e hf
          have he2 : e = invalidDataMsg := Except.error.inj hcontra
          rw [he] at he2
          exact absurd he2 (by decide)
      | ok acc => exact fun hcontra => Except.noConfusion hcontra
    · unfold gc_generate_signals
      rw [hval]
      exact fun hcontra => Except.noConfusion hcontra

/-- Witness for the amended C5: a frame missing `volume` makes both
branches of the invalid case fire, and the full five-column frame never
produces the invalid-data message. -/
theorem invalid_input_spec_witness :
    validate_data ["open", "high", "low", "close"] = false ∧
    validate_data requiredColumns = true ∧
    macd_generate_signals ["open", "high", "low", "close"] [] = .error invalidDataMsg ∧
    gc_generate_signals requiredColumns [] ≠ .error invalidDataMsg := by
  refine ⟨by decide, by decide, ?_, ?_⟩
  · exact ((invalid_input_spec {} {} ["open", "high", "low", "close"]
      [] [] [] [] []).1 (by decide)).2.1
  · exact ((invalid_input_spec {} {} requiredColumns
      [] [] [] [] []).2 (by decide)).2.2.2.2

/-- C8: no signal emitted by any of the five strategies carries a stop-loss
or a take-profit, and in a simulation fed only such signals every recorded
stop/take-profit exit check has `fired = false`: the risk manager's
protective exit never triggers, so positions close only on a SELL signal or
the end-of-data force close. -/
theorem no_protective_levels_spec (p : RSIParams) (q : EMAParams)
    (columns : List String) (rrows : List RSIRow) (mrows : List MACDRow)
    (brows : List BBRow) (erows : List EMARow) (grows : List GCRow)
    (cfg : EngineConfig) (rp : RiskParameters) (data : List Bar)
    (sigs : List TradeSignal) (init : ℚ) (st : SimState) (res : BacktestResults) :
    (∀ out, rsi_generate_signals p columns rrows = .ok out →
      ∀ s ∈ out, s.stop_loss = none ∧ s.take_profit = none) ∧
    (∀ out, macd_generate_signals columns mrows = .ok out →
      ∀ s ∈ out, s.stop_loss = none ∧ s.take_profit = none) ∧
    (∀ out, bb_generate_signals columns brows = .ok out →
      ∀ s ∈ out, s.stop_loss = none ∧ s.take_profit = none) ∧
    (∀ out, ema_generate_signals q columns erows = .ok out →
      ∀ s ∈ out, s.stop_loss = none ∧ s.take_profit = none) ∧
    (∀ out, gc_generate_signals columns grows = .ok out →
      ∀ s ∈ out, s.stop_loss = none ∧ s.take_profit = none) ∧
    ((∀ s ∈ sigs, s.stop_loss = none ∧ s.take_profit = none) →
      simulate_trading cfg rp data sigs init = some (st, res) →
      ∀ c ∈ st.exit_checks, c.fired = false) := by
  refine ⟨?_, ?_, ?_, ?_, ?_, ?_⟩
  · intro out hout
    unfold rsi_generate_signals at hout
    by_cases hval : validate_data columns = true
    · rw [hval] at hout
      cases hf : (adjPairs rrows).foldlM (rsiStep p) ([], none) with
      | error e =>
          rw [hf] at hout
          exact Except.noConfusion hout
      | ok acc =>
          rw [hf] at hout
          have hacc : ∀ s ∈ acc.1, s.stop_loss = none ∧ s.take_profit = none :=
            foldlM_except_invariant
              (fun a => ∀ s ∈ a.1, s.stop_loss = none ∧ s.take_profit = none)
              (fun st1 a st2 hstep hP => rsiStep_ok_no_levels hstep hP)
              (adjPairs rrows) hf (fun s hs => absurd hs (List.not_mem_nil s))
          rw [(Except.ok.inj hout).symm]
          exact hacc
    · rw [Bool.not_eq_true] at hval
      rw [hval] at hout
      exact Except.noConfusion hout
  · intro out hout
    unfold macd_generate_signals at hout
    by_cases hval : validate_data columns = true
    · rw [hval] at hout
      have hacc : ∀ s ∈ ((adjPairs mrows).foldl macdStep ([], none)).1,
          s.stop_loss = none ∧ s.take_profit = none :=
        foldl_invariant
          (fun a : List TradeSignal × Option String =>
            ∀ s ∈ a.1, s.stop_loss = none ∧ s.take_profit = none)
          (fun st1 a hP => macdStep_no_levels hP)
          (adjPairs mrows) ([], none) (fun s hs => absurd hs (List.not_mem_nil s))
      rw [(Except.ok.inj hout).symm]
      exact hacc
    · rw [Bool.not_eq_true] at hval
      rw [hval] at hout
      exact Except.noConfusion hout
  · intro out hout
    unfold bb_generate_signals at hout
    by_cases hval : validate_data columns = true
    · rw [hval] at hout
      have hacc : ∀ s ∈ ((adjPairs brows).foldl bbStep ([], none)).1,
          s.stop_loss = none ∧ s.take_profit = none :=
        foldl_invariant
          (fun a : List TradeSignal × Option String =>
            ∀ s ∈ a.1, s.stop_loss = none ∧ s.take_profit = none)
          (fun st1 a hP => bbStep_no_levels hP)
          (adjPairs brows) ([], none) (fun s hs => absurd hs (List.not_mem_nil s))
      rw [(Except.ok.inj hout).symm]
      exact hacc
    · rw [Bool.not_eq_true] at hval
      rw [hval] at hout
      exact Except.noConfusion hout
  · intro out hout
    unfold ema_generate_signals at hout
    by_cases hval : validate_data columns = true
    · rw [hval] at hout
      cases hf : (adjPairs erows).enum.foldlM (emaStep q) ([], none) with
      | error e =>
          rw [hf] at hout
          exact Except.noConfusion hout
      | ok acc =>
          rw [hf] at hout
          have hacc : ∀ s ∈ acc.1, s.stop_loss = none ∧ s.take_profit = none :=
            foldlM_except_invariant
              (fun a => ∀ s ∈ a.1, s.stop_loss = none ∧ s.take_profit = none)
              (fun st1 a st2 hstep hP => emaStep_ok_no_levels hstep hP)
              (adjPairs erows).enum hf (fun s hs => absurd hs (List.not_mem_nil s))
          rw [(Except.ok.inj hout).symm]
          exact hacc
    · rw [Bool.not_eq_true] at hval
      rw [hval] at hout
      exact Except.noConfusion hout
  · intro out hout
    unfold gc_generate_signals at hout
    by_cases hval : validate_data columns = true
    · rw [hval] at hout
      have hacc : ∀ s ∈ ((adjPairs grows).foldl gcStep ([], none)).1,
          s.stop_loss = none ∧ s.take_profit = none :=
        foldl_invariant
          (fun a : List TradeSignal × Option String =>
            ∀ s ∈ a.1, s.stop_loss = none ∧ s.take_profit = none)
          (fun st1 a hP => gcStep_no_levels hP)
          (adjPairs grows) ([], none) (fun s hs => absurd hs (List.not_mem_nil s))
      rw [(Except.ok.inj hout).symm]
      exact hacc
    · rw [Bool.not_eq_true] at hval
      rw [hval] at hout
      exact Except.noConfusion hout
  · intro hnone hrun
    obtain ⟨hfold, ft, hforce, hres⟩ := simulate_trading_cases hrun
    have hnf : neverFiredInv sigs st :=
      foldlM_option_invariant (neverFiredInv sigs)
        (fun st1 bar st2 hs hP => simStep_neverFired hnone hs hP) data hfold
        ⟨fun s hs => Option.noConfusion hs, fun c hc => absurd hc (List.not_mem_nil c)⟩
    exact hnf.2

/-- Witness for C8: the concrete RSI-style signal list has no protective
levels, and in the concrete run every recorded exit check has
`fired = false`. -/
theorem no_protective_levels_spec_witness :
    ∃ st res,
      simulate_trading cexCfg defaultRiskParameters cexData cexSigs 10000 = some (st, res) ∧
      ∀ c ∈ st.exit_checks, c.fired = false := by
  obtain ⟨st, res, h⟩ : ∃ st res,
      simulate_trading cexCfg defaultRiskParameters cexData cexSigs 10000 = some (st, res) :=
    ⟨_, _, by with_unfolding_all rfl⟩
  refine ⟨st, res, h, ?_⟩
  exact (no_protective_levels_spec {} {} [] [] [] [] [] [] cexCfg defaultRiskParameters
    cexData cexSigs 10000 st res).2.2.2.2.2 (by decide) h

end Backtester
namespace Backtester

theorem getCol_cons (a : String) (w : Series) (rest : DataFrame) (m : String) :
    getCol ((a, w) :: rest) m = if a = m then some w else getCol rest m := by
  unfold getCol
  by_cases h : a = m
  · rw [List.find?_cons_of_pos _ (by simpa using h), if_pos h]
    rfl
  · rw [List.find?_cons_of_neg _ (by simpa using h), if_neg h]

theorem getCol_setCol (df : DataFrame) (n m : String) (v : Series) :
    getCol (setCol df n v) m = if m = n then some v else getCol df m := by
  induction df with
  | nil =>
      rw [show setCol [] n v = [(n, v)] from rfl, getCol_cons]
      by_cases h : m = n
      · rw [if_pos h.symm, if_pos h]
      · rw [if_neg (fun hh : n = m => h hh.symm), if_neg h]
  | cons p rest ih =>
      obtain ⟨a, w⟩ := p
      unfold setCol
      dsimp only
      by_cases hp : a = n
      · rw [if_pos hp, getCol_cons, getCol_cons]
        by_cases hm : m = n
        · rw [if_pos hm.symm, if_pos hm]
        · rw [if_neg (fun hh : n = m => hm hh.symm), if_neg hm,
            if_neg (fun hh : a = m => hm ((hh.symm.trans hp).symm ▸ rfl))]
      · rw [if_neg hp, getCol_cons, getCol_cons, ih]
        by_cases hm : m = n
        · rw [if_pos hm, if_neg (fun hh : a = m => hp (hh.trans hm)), if_pos hm]
        · rw [if_neg hm, if_neg hm]

theorem getObj_set_append_lt (s : Store) (df F : DataFrame) (j : ℕ) (h : j < s.length) :
    getObj ((s ++ [df]).set s.length F) j = getObj s j := by
  unfold getObj
  rw [List.getD_eq_getElem?_getD, List.getD_eq_getElem?_getD,
    List.getElem?_set_ne (by omega), List.getElem?_append, if_pos h]

theorem getObj_set_append_self (s : Store) (df F : DataFrame) :
    getObj ((s ++ [df]).set s.length F) s.length = F := by
  unfold getObj
  rw [List.getD_eq_getElem?_getD, List.getElem?_set_self (by simp)]
  rfl

theorem add_all_indicators_frame_preserves (ta : TaLib) (df : DataFrame) (n : String)
    (hn : n ∉ indicatorColumns) :
    getCol (add_all_indicators_frame ta df) n = getCol df n := by
  simp only [indicatorColumns, List.mem_cons, List.mem_singleton, not_or,
    List.not_mem_nil, or_false] at hn
  obtain ⟨h1, h2, h3, h4, h5, h6, h7, h8, h9, h10, h11, h12, h13, h14, h15, h16⟩ := hn
  simp only [add_all_indicators_frame, getCol_setCol, h1, h2, h3, h4, h5, h6, h7,
    h8, h9, h10, h11, h12, h13, h14, h15, h16, if_false, ite_false]

theorem add_all_indicators_frame_has (ta : TaLib) (df : DataFrame) :
    ∀ c ∈ indicatorColumns, (getCol (add_all_indicators_frame ta df) c).isSome = true := by
  intro c hc
  simp only [indicatorColumns, List.mem_cons, List.mem_singleton,
    List.not_mem_nil, or_false] at hc
  rcases hc with rfl | rfl | rfl | rfl | rfl | rfl | rfl | rfl | rfl | rfl | rfl |
    rfl | rfl | rfl | rfl | rfl <;>
    simp [add_all_indicators_frame, getCol_setCol]

/-- C7: `add_all_indicators` allocates a fresh frame (its address differs
from the argument's), the returned frame carries all sixteen indicator
columns, every column of the original frame (whose names do not collide
with the indicator bundle) is readable unmodified from the returned frame,
and no pre-existing object of the store — in particular the caller's input
frame — is changed. -/
theorem add_all_indicators_spec (ta : TaLib) (s : Store) (i : ℕ)
    (hin : i < s.length)
    (hdisj : ∀ n ∈ (getObj s i).map Prod.fst, n ∉ indicatorColumns) :
    (add_all_indicators ta s i).2 ≠ i ∧
    (∀ c ∈ indicatorColumns,
      (getCol (getObj (add_all_indicators ta s i).1 (add_all_indicators ta s i).2)
        c).isSome = true) ∧
    (∀ n ∈ (getObj s i).map Prod.fst,
      getCol (getObj (add_all_indicators ta s i).1 (add_all_indicators ta s i).2) n =
        getCol (getObj s i) n) ∧
    (∀ j, j < s.length → getObj (add_all_indicators ta s i).1 j = getObj s j) := by
  have hfst : (add_all_indicators ta s i).1 =
      (s ++ [getObj s i]).set s.length (add_all_indicators_frame ta (getObj s i)) := rfl
  have hsnd : (add_all_indicators ta s i).2 = s.length := rfl
  have hout : getObj (add_all_indicators ta s i).1 (add_all_indicators ta s i).2 =
      add_all_indicators_frame ta (getObj s i) := by
    rw [hfst, hsnd]
    exact getObj_set_append_self s (getObj s i) _
  refine ⟨?_, ?_, ?_, ?_⟩
  · rw [hsnd]
    omega
  · intro c hc
    rw [hout]
    exact add_all_indicators_frame_has ta (getObj s i) c hc
  · intro n hn
    rw [hout]
    exact add_all_indicators_frame_preserves ta (getObj s i) n (hdisj n hn)
  · intro j hj
    rw [hfst]
    exact getObj_set_append_lt s (getObj s i) _ j hj

/-- Witness for C7 on a concrete store and a trivial `ta` instance. -/
theorem add_all_indicators_spec_witness :
    0 < cexStore.length ∧
    (∀ n ∈ (getObj cexStore 0).map Prod.fst, n ∉ indicatorColumns) ∧
    ∀ j, j < cexStore.length →
      getObj (add_all_indicators cexTa cexStore 0).1 j = getObj cexStore j := by
  refine ⟨by decide, by decide, ?_⟩
  exact (add_all_indicators_spec cexTa cexStore 0 (by decide) (by decide)).2.2.2

end Backtester
